import Mathlib

/-!
Verification development for the birpc-style RPC engine in `src/rpc/src/main.ts`.

The engine is shallowly embedded as a state machine:

* JavaScript values are modelled by `JsValue` (with JS truthiness `truthy`).
* Wire frames (`messages.ts`) are modelled by `RpcMessage`.
* The endpoint state (`$closed`, `_rpcPromiseMap`, `_streamMap`, the promise
  cells created by `createPromiseWithResolvers`, the closure state of each
  stream iterator, and the set of armed `setTimeout` timers) is `State`.
* `onMessage`, `$close`, `$rejectPendingCalls`, the body of `_call`'s
  `handler`, the body of `_callStream`'s `startCall`, the iterator `next`
  and `return` of `_callStream`, and the `setTimeout` expiry bodies are
  each translated as functions from `State` to `State` (plus posted frames,
  a log of invoked user error handlers, and an optional thrown error).

Modelling conventions:

* `serialize`/`deserialize` are the identity (the library default); a failure
  of `post(serialize(msg))` is modelled by `Config.postFail`, which names the
  error such a post throws (`none` = the post succeeds).
* Promises are cells settled at most once (`settleCell`); `resolve`/`reject`
  continuations are addressed by the request id plus a `Target` saying whether
  the record's continuations go to the promise cell (`_call`) or to the stream
  closure's `error` sink (`_callStream`'s ack entry).
* `setTimeout` handles are consecutive naturals (`State.nextH`); `clearTimeout`
  removes the handle from the armed set. `unref` is ignored (it does not
  change when or whether a timer fires).
* The `onRequest` hook and `eventNames` are not exercised by any claim and are
  left out of `Config`; `resolver` is included (the request branch consults it).
-/

set_option maxHeartbeats 1000000

/-- A JavaScript value, as far as the engine inspects values: the engine only
ever branches on truthiness, so a small universe is enough.  `err` is an
`Error` whose `cause` is unset (or nullish); `errC` is an `Error` with a
set `cause`. -/
inductive JsValue where
  | undef
  | null
  | bool (b : Bool)
  | num (n : Int)
  | str (s : String)
  | err (msg : String)
  | errC (msg : String) (cause : JsValue)
deriving DecidableEq, Repr

/-- JS truthiness, used by `if (error)`, `if (requestId)`, `fn ||= ...`,
`customError || ...`. -/
def truthy : JsValue → Bool
  | .undef => false
  | .null => false
  | .bool b => b
  | .num n => n != 0
  | .str s => s != ""
  | .err _ => true
  | .errC _ _ => true

/-- The final state of a settled promise. -/
inductive Outcome where
  | resolved (v : JsValue)
  | rejected (e : JsValue)
deriving DecidableEq, Repr

/-- Result of invoking a user-supplied error handler: it returns a value
(`=== true` means "suppress") or throws. -/
inductive HRes where
  | ret (v : JsValue)
  | thr (e : JsValue)

/-- Result of invoking a local function: a (settled) return value, a thrown
error, or an async iterable yielding `vs` and then either finishing normally
(`te = none`) or raising `te = some e`. -/
inductive FnOut where
  | ret (v : JsValue)
  | thr (e : JsValue)
  | stream (vs : List JsValue) (te : Option JsValue)

/-- A local function: argument list to invocation result. -/
def FnVal := List JsValue → FnOut

/-- A node of the local function tree (`$functions`): a callable leaf, a
nested object, a null/undefined node, or some other primitive value. -/
inductive FTree where
  | null
  | func (f : FnVal)
  | obj (entries : List (String × FTree))
  | prim (v : JsValue)

/-- `current[part]` during path traversal. Functions and primitives carry no
own properties in this model, so indexing them yields undefined (`.null`). -/
def FTree.index (t : FTree) (part : String) : FTree :=
  match t with
  | .obj entries =>
    match entries.lookup part with
    | some child => child
    | none => .null
  | _ => .null

/-- JS `path.split(".")`, implemented structurally over the character list
(`"".split(".")` is `[""]`, `"a..b".split(".")` is `["a", "", "b"]`). -/
def splitDot : List Char → List String
  | [] => [""]
  | c :: rest =>
    if c = '.' then "" :: splitDot rest
    else
      match splitDot rest with
      | s :: tail => String.mk (c :: s.data) :: tail
      | [] => [String.mk [c]]

/-- Mirror of `resolveNestedFunction` in `main.ts`: split the path on ".",
walk the tree (returning undefined as soon as the cursor is null/undefined),
and require the terminal node to be callable. -/
def resolveNestedFunction (functions : FTree) (path : String) :
    Option FnVal :=
  go functions (splitDot path.data)
where
  go : FTree → List String → Option FnVal
    | .func f, [] => some f
    | _, [] => none
    | .null, _ :: _ => none
    | cur, part :: rest => go (cur.index part) rest

/-- The six wire frames of `messages.ts` (tags q/s/a/n/d/x). Absent `r`/`e`
fields of a Response are `JsValue.undef`. -/
inductive RpcMessage where
  | request (i : Option String) (m : String) (a : List JsValue) (o : Bool)
  | response (i : String) (r : JsValue) (e : JsValue)
  | ack (i : String)
  | streamNext (i : String) (v : JsValue)
  | streamEnd (i : String)
  | streamError (i : String) (e : JsValue)
deriving DecidableEq, Repr

/-- Where a pending-call record's `resolve`/`reject` continuations deliver:
the promise cell of `_call`, or the stream closure's `error` sink (the record
`_callStream` registers while waiting for the Ack). -/
inductive Target where
  | promise
  | stream
deriving DecidableEq, Repr

/-- Which timer a `setTimeout` registration belongs to. -/
inductive TKind where
  | ackT
  | respT
  | streamT
deriving DecidableEq, Repr

/-- A `PromiseEntry` of `_rpcPromiseMap`. -/
structure PromiseEntry where
  method : String
  target : Target
  ackTimeoutId : Option Nat
  responseTimeoutId : Option Nat
  ackReceived : Bool
deriving DecidableEq, Repr

/-- The closure state of one `_callStream` invocation: buffered queue, the
`done` flag, the last value passed to the `error` sink, and the stream's
response-timer handle. -/
structure StreamState where
  queue : List JsValue
  done : Bool
  error : Option JsValue
  timeoutId : Option Nat
deriving DecidableEq, Repr

/-- An armed `setTimeout` timer, with everything its expiry closure captured:
the request id, the method, the argument list passed to the user handler, and
the continuation target. -/
structure Timer where
  h : Nat
  kind : TKind
  id : String
  method : String
  args : List JsValue
  target : Target
deriving DecidableEq, Repr

/-- Which user error handler an engine step invoked, and with what method
path and argument list. -/
inductive HKind where
  | timeoutH
  | ackTimeoutH
  | functionErrorH
  | generalErrorH
deriving DecidableEq, Repr

/-- One user error-handler invocation. -/
structure HCall where
  kind : HKind
  method : String
  args : List JsValue
deriving DecidableEq, Repr

/-- The full endpoint state.  `cells` are the promise cells of every `_call`
ever started (`some none` = pending, `some (some o)` = settled); `streams` are
the closure states of every `_callStream` ever started.  Both persist past
record removal, as JS closures do. -/
structure State where
  closed : Bool
  promiseMap : List (String × PromiseEntry)
  streamMap : List String
  cells : List (String × Option Outcome)
  streams : List (String × StreamState)
  armed : List Timer
  nextH : Nat
deriving DecidableEq, Repr

def initState : State :=
  { closed := false, promiseMap := [], streamMap := [], cells := [],
    streams := [], armed := [], nextH := 0 }

/-- Endpoint configuration (the `BirpcOptions` fields the claims exercise). -/
structure Config where
  tree : FTree
  timeout : Int
  ackTimeout : Option Int
  resolver : Option (String → Option FnVal → Option FnVal)
  onFunctionError : Option (JsValue → String → List JsValue → HRes)
  onGeneralError : Option (JsValue → HRes)
  onTimeoutError : Option (String → List JsValue → HRes)
  onAckTimeoutError : Option (String → List JsValue → HRes)
  postFail : RpcMessage → Option JsValue

namespace Rpc

/-! ### Association-list operations (JS `Map` with string keys) -/

def alookup {α : Type} : List (String × α) → String → Option α
  | [], _ => none
  | (k, v) :: rest, key => if k = key then some v else alookup rest key

def aset {α : Type} : List (String × α) → String → α → List (String × α)
  | [], key, v => [(key, v)]
  | (k, w) :: rest, key, v =>
    if k = key then (k, v) :: rest else (k, w) :: aset rest key v

def aerase {α : Type} : List (String × α) → String → List (String × α)
  | [], _ => []
  | (k, w) :: rest, key =>
    if k = key then rest else (k, w) :: aerase rest key

def aupdate {α : Type} (f : α → α) :
    List (String × α) → String → List (String × α)
  | [], _ => []
  | (k, w) :: rest, key =>
    if k = key then (k, f w) :: rest else (k, w) :: aupdate f rest key

theorem alookup_aset_self {α : Type} (l : List (String × α)) (k : String)
    (v : α) : alookup (aset l k v) k = some v := by
  induction l with
  | nil => simp [aset, alookup]
  | cons p rest ih =>
    obtain ⟨k', w⟩ := p
    by_cases h : k' = k
    · subst h
      simp [aset, alookup]
    · simp [aset, alookup, h, ih]

theorem alookup_aset_ne {α : Type} (l : List (String × α)) (k j : String)
    (v : α) (hne : j ≠ k) : alookup (aset l k v) j = alookup l j := by
  have hkj : ¬ (k = j) := fun hE => hne hE.symm
  induction l with
  | nil => simp [aset, alookup, hkj]
  | cons p rest ih =>
    obtain ⟨k', w⟩ := p
    by_cases h : k' = k
    · subst h
      simp [aset, alookup, hkj]
    · simp only [aset, if_neg h, alookup]
      by_cases h2 : k' = j
      · simp [h2]
      · simp [h2, ih]

theorem alookup_aerase_ne {α : Type} (l : List (String × α)) (k j : String)
    (hne : j ≠ k) : alookup (aerase l k) j = alookup l j := by
  have hkj : ¬ (k = j) := fun hE => hne hE.symm
  induction l with
  | nil => simp [aerase]
  | cons p rest ih =>
    obtain ⟨k', w⟩ := p
    by_cases h : k' = k
    · subst h
      simp [aerase, alookup, hkj]
    · simp only [aerase, if_neg h, alookup]
      by_cases h2 : k' = j
      · simp [h2]
      · simp [h2, ih]

theorem alookup_eq_none_of_not_mem_keys {α : Type} (l : List (String × α))
    (k : String) (h : k ∉ l.map Prod.fst) : alookup l k = none := by
  induction l with
  | nil => rfl
  | cons p rest ih =>
    obtain ⟨k', w⟩ := p
    simp only [List.map_cons, List.mem_cons] at h
    push_neg at h
    have h1 : ¬ (k' = k) := fun hE => h.1 hE.symm
    simp [alookup, h1, ih h.2]

theorem alookup_aerase_self {α : Type} (l : List (String × α)) (k : String)
    (hnd : (l.map Prod.fst).Nodup) : alookup (aerase l k) k = none := by
  induction l with
  | nil => simp [aerase, alookup]
  | cons p rest ih =>
    obtain ⟨k', w⟩ := p
    simp only [List.map_cons, List.nodup_cons] at hnd
    by_cases h : k' = k
    · subst h
      simp only [aerase, if_pos rfl]
      exact alookup_eq_none_of_not_mem_keys rest k' hnd.1
    · simp only [aerase, if_neg h, alookup, if_neg h]
      exact ih hnd.2

theorem aerase_of_absent {α : Type} (l : List (String × α)) (k : String)
    (h : alookup l k = none) : aerase l k = l := by
  induction l with
  | nil => rfl
  | cons p rest ih =>
    obtain ⟨k', w⟩ := p
    simp only [alookup] at h
    by_cases hk : k' = k
    · simp [hk] at h
    · simp only [aerase, if_neg hk]
      rw [ih (by simpa [hk] using h)]

theorem alookup_aupdate_ne {α : Type} (f : α → α) (l : List (String × α))
    (k j : String) (hne : j ≠ k) :
    alookup (aupdate f l k) j = alookup l j := by
  have hkj : ¬ (k = j) := fun hE => hne hE.symm
  induction l with
  | nil => simp [aupdate]
  | cons p rest ih =>
    obtain ⟨k', w⟩ := p
    by_cases h : k' = k
    · subst h
      simp [aupdate, alookup, hkj]
    · simp only [aupdate, if_neg h, alookup]
      by_cases h2 : k' = j
      · simp [h2]
      · simp [h2, ih]

theorem alookup_aupdate_absent {α : Type} (f : α → α) (l : List (String × α))
    (k : String) (h : alookup l k = none) : aupdate f l k = l := by
  induction l with
  | nil => rfl
  | cons p rest ih =>
    obtain ⟨k', w⟩ := p
    simp only [alookup] at h
    by_cases hk : k' = k
    · simp [hk] at h
    · simp only [aupdate, if_neg hk]
      rw [ih (by simpa [hk] using h)]

theorem alookup_aupdate_self {α : Type} (f : α → α) (l : List (String × α))
    (k : String) (v : α) (h : alookup l k = some v) :
    alookup (aupdate f l k) k = some (f v) := by
  induction l with
  | nil => simp [alookup] at h
  | cons p rest ih =>
    obtain ⟨k', w⟩ := p
    by_cases hk : k' = k
    · subst hk
      have h' : w = v := by simpa [alookup] using h
      subst h'
      simp [aupdate, alookup]
    · simp only [alookup, if_neg hk] at h
      simp [aupdate, alookup, hk, ih h]

/-! ### Error values produced by the engine (exact message strings) -/

def closedCallError (m : String) : JsValue :=
  .err ("[birpc] rpc is closed, cannot call \"" ++ m ++ "\"")

def notFoundError (m : String) : JsValue :=
  .err ("[birpc] function \"" ++ m ++ "\" not found")

def timeoutError (m : String) : JsValue :=
  .err ("[birpc] timeout on calling \"" ++ m ++ "\"")

def ackTimeoutError (m : String) : JsValue :=
  .err ("[birpc] ack timeout on calling \"" ++ m ++
    "\" - message may not have been received")

def streamClosedError : JsValue :=
  .err "[birpc] rpc is closed, stream terminated"

def rejectedPendingError (m : String) : JsValue :=
  .err ("[birpc]: rejected pending call \"" ++ m ++ "\".")

/-! ### State mutation primitives -/

/-- `setTimeout`: arm a timer; the handle is the current counter value. -/
def armTimer (st : State) (k : TKind) (id m : String) (args : List JsValue)
    (tgt : Target) : State × Nat :=
  ({ st with armed := st.armed ++ [⟨st.nextH, k, id, m, args, tgt⟩],
             nextH := st.nextH + 1 }, st.nextH)

/-- `clearTimeout` on an optional handle. -/
def clearHandle (st : State) (h : Option Nat) : State :=
  match h with
  | none => st
  | some n => { st with armed := st.armed.filter (fun t => t.h != n) }

/-- Settle a promise cell; settling is first-wins, as for JS promises. -/
def settleCell (cells : List (String × Option Outcome)) (id : String)
    (o : Outcome) : List (String × Option Outcome) :=
  aupdate (fun c => match c with | none => some o | some x => some x) cells id

/-- `streamEntry.push`: append to the buffered queue. -/
def pushVal (v : JsValue) (ss : StreamState) : StreamState :=
  { ss with queue := ss.queue ++ [v] }

/-- `streamEntry.end`: set the terminal done flag. -/
def setDone (ss : StreamState) : StreamState :=
  { ss with done := true }

/-- `streamEntry.error`: record the error value. -/
def setErr (e : JsValue) (ss : StreamState) : StreamState :=
  { ss with error := some e }

/-- Store the stream's response-timer handle in the closure. -/
def setTid (h : Nat) (ss : StreamState) : StreamState :=
  { ss with timeoutId := some h }

/-- The Ack branch's record mutation: mark acknowledged and store the new
response-timer handle. -/
def markAcked (hr : Option Nat) (en : PromiseEntry) : PromiseEntry :=
  { en with ackReceived := true, responseTimeoutId := hr }

/-- Run a record's `reject` continuation: settle the promise cell
(`_call` records) or feed the stream closure's `error` sink
(`_callStream`'s ack record). -/
def doReject (st : State) (tgt : Target) (id : String) (e : JsValue) : State :=
  match tgt with
  | .promise => { st with cells := settleCell st.cells id (.rejected e) }
  | .stream => { st with streams := aupdate (setErr e) st.streams id }

/-- Run a record's `resolve` continuation (`() => {}` for stream records). -/
def doResolve (st : State) (tgt : Target) (id : String) (v : JsValue) :
    State :=
  match tgt with
  | .promise => { st with cells := settleCell st.cells id (.resolved v) }
  | .stream => st

/-! ### User error-handler consultation -/

/-- Expiry body of a response timer: consult `onTimeoutError`; returns the
error to reject with (`none` when the handler returned `true`) and the
handler-invocation log. -/
def consultTimeoutHandler (cfg : Config) (m : String) (args : List JsValue) :
    Option JsValue × List HCall :=
  match cfg.onTimeoutError with
  | none => (some (timeoutError m), [])
  | some h =>
    let lg : List HCall := [⟨.timeoutH, m, args⟩]
    match h m args with
    | .ret (.bool true) => (none, lg)
    | .ret _ => (some (timeoutError m), lg)
    | .thr e => (some e, lg)

/-- Expiry body of an ack timer: consult `onAckTimeoutError`. -/
def consultAckTimeoutHandler (cfg : Config) (m : String)
    (args : List JsValue) : Option JsValue × List HCall :=
  match cfg.onAckTimeoutError with
  | none => (some (ackTimeoutError m), [])
  | some h =>
    let lg : List HCall := [⟨.ackTimeoutH, m, args⟩]
    match h m args with
    | .ret (.bool true) => (none, lg)
    | .ret _ => (some (ackTimeoutError m), lg)
    | .thr e => (some e, lg)

/-- Outcome of `if (onGeneralError?.call(rpc, e) !== true) throw e`. -/
inductive GenOut where
  | suppressed
  | raise (e : JsValue)

def consultGeneralError (cfg : Config) (e : JsValue) :
    GenOut × List HCall :=
  match cfg.onGeneralError with
  | none => (.raise e, [])
  | some h =>
    let lg : List HCall := [⟨.generalErrorH, "", []⟩]
    match h e with
    | .ret (.bool true) => (.suppressed, lg)
    | .ret _ => (.raise e, lg)
    | .thr e2 => (.raise e2, lg)

/-! ### Timers -/

/-- Whether `ackTimeout !== undefined && ackTimeout >= 0`, i.e. whether the
ack timer is armed for an outgoing call. -/
def ackArmB (cfg : Config) : Bool :=
  match cfg.ackTimeout with
  | some a => decide (0 ≤ a)
  | none => false

/-- `ackReceived: !ackTimeout`: JS falsiness of the configured value
(`undefined` and `0` mark the record as already acknowledged). -/
def ackRecInit : Option Int → Bool
  | none => true
  | some a => a == 0

/-- Mirror of `startResponseTimeout`: arm the response timer unless the
configured timeout is negative; returns the new handle. -/
def startResponseTimeout (cfg : Config) (st : State) (id m : String)
    (args : List JsValue) (tgt : Target) : State × Option Nat :=
  if cfg.timeout < 0 then (st, none)
  else
    let (st2, h) := armTimer st .respT id m args tgt
    (st2, some h)

/-! ### Outgoing calls -/

/-- Mirror of the response-expecting path of `_call` (its inner `handler`
with `req` unchanged, plus the surrounding catch/finally when the post
throws): create the promise cell, arm the ack timer or the response timer,
register the pending record, post the Request.  Returns the new state, the
posted frames, and the error `_call` throws synchronously (closed engine) or
propagates from a failed post. -/
def callStart (cfg : Config) (st : State) (id m : String)
    (args : List JsValue) (optional : Bool) :
    State × List RpcMessage × Option JsValue :=
  if st.closed then (st, [], some (closedCallError m))
  else
    let req : RpcMessage := .request (some id) m args optional
    let st1 := { st with cells := aset st.cells id none }
    let (st2, entry) :=
      if ackArmB cfg then
        let (st', h) := armTimer st1 .ackT id m args .promise
        (st', (⟨m, .promise, some h, none, ackRecInit cfg.ackTimeout⟩ :
          PromiseEntry))
      else
        let (st', hr) := startResponseTimeout cfg st1 id m args .promise
        (st', ⟨m, .promise, none, hr, ackRecInit cfg.ackTimeout⟩)
    let st3 := { st2 with promiseMap := aset st2.promiseMap id entry }
    match cfg.postFail req with
    | none => (st3, [req], none)
    | some e =>
      let st4 := clearHandle (clearHandle st3 entry.ackTimeoutId)
        entry.responseTimeoutId
      let st5 := { st4 with promiseMap := aerase st4.promiseMap id }
      match consultGeneralError cfg e with
      | (.suppressed, _) => (st5, [], none)
      | (.raise e2, _) => (st5, [], some e2)

/-- Mirror of `_callStream`'s `startCall` (the body run on first iteration):
create the stream closure, arm the ack timer with a stream-targeted record,
or arm the stream's own response timer, register the stream record, and post
the Request.  On a failed post both records are deleted (their timers are
not cleared) and the error becomes `startError`. -/
def streamStart (cfg : Config) (st : State) (id m : String)
    (args : List JsValue) : State × List RpcMessage × Option JsValue :=
  if st.closed then (st, [], some (closedCallError m))
  else
    let req : RpcMessage := .request (some id) m args false
    let st1 := { st with streams := aset st.streams id ⟨[], false, none, none⟩ }
    let st2 :=
      if ackArmB cfg then
        let (st', h) := armTimer st1 .ackT id m args .stream
        let en : PromiseEntry := ⟨m, .stream, some h, none, false⟩
        { st' with promiseMap := aset st'.promiseMap id en }
      else
        if 0 ≤ cfg.timeout then
          let (st', h) := armTimer st1 .streamT id m args .stream
          { st' with streams := aupdate (setTid h) st'.streams id }
        else st1
    let st3 := { st2 with streamMap := id :: st2.streamMap }
    match cfg.postFail req with
    | none => (st3, [req], none)
    | some e =>
      ({ st3 with promiseMap := aerase st3.promiseMap id,
                  streamMap := st3.streamMap.erase id }, [], some e)

/-! ### The receiver's Request branch -/

/-- Output of a receiver step: frames posted, user error handlers invoked,
and the error thrown out of `onMessage`, if any. -/
structure ReqOut where
  posts : List RpcMessage
  hcalls : List HCall
  thrown : Option JsValue
deriving DecidableEq, Repr

/-- The `// Try to send error if serialization failed` block: post a
Response carrying `e`; on failure consult the general-error handler. -/
def sendErrorResponse (cfg : Config) (i : String) (e : JsValue)
    (posts : List RpcMessage) (logs : List HCall) : ReqOut :=
  match cfg.postFail (.response i .undef e) with
  | none => ⟨posts ++ [.response i .undef e], logs, none⟩
  | some e2 =>
    match consultGeneralError cfg e2 with
    | (.suppressed, lg) => ⟨posts, logs ++ lg, none⟩
    | (.raise e3, lg) => ⟨posts, logs ++ lg, some e3⟩

/-- The producer's catch: post a StreamError; on failure consult the
general-error handler. -/
def sendStreamError (cfg : Config) (i : String) (e : JsValue)
    (posts : List RpcMessage) (logs : List HCall) : ReqOut :=
  match cfg.postFail (.streamError i e) with
  | none => ⟨posts ++ [.streamError i e], logs, none⟩
  | some e2 =>
    match consultGeneralError cfg e2 with
    | (.suppressed, lg) => ⟨posts, logs ++ lg, none⟩
    | (.raise e3, lg) => ⟨posts, logs ++ lg, some e3⟩

/-- The producer loop (`for await (const value of result) ...`): post each
yielded value as StreamNext, then StreamEnd on normal completion; any
iteration error or failed post jumps to the StreamError catch. -/
def streamProduceFrom (cfg : Config) (i : String) (te : Option JsValue) :
    List JsValue → List RpcMessage → List HCall → ReqOut
  | [], posts, logs =>
    (match te with
     | some e => sendStreamError cfg i e posts logs
     | none =>
       match cfg.postFail (.streamEnd i) with
       | none => ⟨posts ++ [.streamEnd i], logs, none⟩
       | some e => sendStreamError cfg i e posts logs)
  | v :: rest, posts, logs =>
    match cfg.postFail (.streamNext i v) with
    | none =>
      streamProduceFrom cfg i te rest (posts ++ [.streamNext i v]) logs
    | some e => sendStreamError cfg i e posts logs

/-- Invocation outcome inside the Request branch. -/
inductive InvokeRes where
  | val (v : JsValue)
  | iter (vs : List JsValue) (te : Option JsValue)
  | errv (e : JsValue)

/-- `if (requestId)`: a present-but-empty id string is falsy. -/
def idTruthy : Option String → Option String
  | some i => if i = "" then none else some i
  | none => none

/-- Mirror of the `msg.t === TYPE_REQUEST` branch of `onMessage`: Ack first
(when the id is truthy), then path resolution (with optional-call
substitution), invocation, the function-error hook, and the
response/stream/error posting cascade. -/
def handleRequest (cfg : Config) (reqId : Option String) (m : String)
    (args : List JsValue) (optional : Bool) : ReqOut :=
  let idOk := idTruthy reqId
  let ackPhase : List RpcMessage × List HCall × Option JsValue :=
    match idOk with
    | none => ([], [], none)
    | some i =>
      match cfg.postFail (.ack i) with
      | none => ([.ack i], [], none)
      | some e =>
        match consultGeneralError cfg e with
        | (.suppressed, lg) => ([], lg, none)
        | (.raise e2, lg) => ([], lg, some e2)
  match ackPhase with
  | (aposts, alogs, some e) => ⟨aposts, alogs, some e⟩
  | (aposts, alogs, none) =>
    let resolvedFn := resolveNestedFunction cfg.tree m
    let fn0 :=
      match cfg.resolver with
      | none => resolvedFn
      | some r => r m resolvedFn
    let fn := if optional then
        (match fn0 with
         | none => some (fun _ => FnOut.ret .undef)
         | s => s)
      else fn0
    let inv : InvokeRes :=
      match fn with
      | none => .errv (notFoundError m)
      | some f =>
        match f args with
        | .ret v => .val v
        | .thr e => .errv e
        | .stream vs te => .iter vs te
    match idOk with
    | none => ⟨aposts, alogs, none⟩
    | some i =>
      match inv with
      | .errv e =>
        (match cfg.onFunctionError with
         | some h =>
           let lg : List HCall := [⟨.functionErrorH, m, args⟩]
           match h e m args with
           | .ret (.bool true) => ⟨aposts, alogs ++ lg, none⟩
           | .ret _ => sendErrorResponse cfg i e aposts (alogs ++ lg)
           | .thr e2 => ⟨aposts, alogs ++ lg, some e2⟩
         | none => sendErrorResponse cfg i e aposts alogs)
      | .iter vs te => streamProduceFrom cfg i te vs aposts alogs
      | .val v =>
        match cfg.postFail (.response i v .undef) with
        | none => ⟨aposts ++ [.response i v .undef], alogs, none⟩
        | some e =>
          match consultGeneralError cfg e with
          | (.raise e2, lg) => ⟨aposts, alogs ++ lg, some e2⟩
          | (.suppressed, lg) =>
            sendErrorResponse cfg i e aposts (alogs ++ lg)

/-! ### onMessage -/

/-- Result of one `onMessage` delivery: the new state, posted frames,
handler log, thrown error. -/
structure StepOut where
  st : State
  posts : List RpcMessage
  hcalls : List HCall
  thrown : Option JsValue

/-- Mirror of `onMessage` (deserialization is the identity here; a frame
that fails to deserialize never reaches this dispatch). -/
def onMessage (cfg : Config) (st : State) (msg : RpcMessage) : StepOut :=
  match msg with
  | .request i m a o =>
    let r := handleRequest cfg i m a o
    ⟨st, r.posts, r.hcalls, r.thrown⟩
  | .ack id =>
    (match alookup st.promiseMap id with
     | some entry =>
       if entry.ackReceived then ⟨st, [], [], none⟩
       else
         let st1 := clearHandle st entry.ackTimeoutId
         let (st2, hr) :=
           startResponseTimeout cfg st1 id entry.method [] entry.target
         let st3 :=
           { st2 with promiseMap := aupdate (markAcked hr) st2.promiseMap id }
         ⟨st3, [], [], none⟩
     | none => ⟨st, [], [], none⟩)
  | .response id r e =>
    (match alookup st.promiseMap id with
     | some p =>
       let st1 := clearHandle (clearHandle st p.ackTimeoutId)
         p.responseTimeoutId
       let st2 := if truthy e then doReject st1 p.target id e
         else doResolve st1 p.target id r
       ⟨{ st2 with promiseMap := aerase st2.promiseMap id }, [], [], none⟩
     | none =>
       ⟨{ st with promiseMap := aerase st.promiseMap id }, [], [], none⟩)
  | .streamNext id v =>
    if id ∈ st.streamMap then
      ⟨{ st with streams := aupdate (pushVal v) st.streams id }, [], [], none⟩
    else ⟨st, [], [], none⟩
  | .streamEnd id =>
    let st1 :=
      if id ∈ st.streamMap then
        let tid := match alookup st.streams id with
          | some ss => ss.timeoutId
          | none => none
        let st' := clearHandle st tid
        { st' with streams := aupdate setDone st'.streams id,
                   streamMap := st'.streamMap.erase id }
      else st
    let st2 :=
      match alookup st1.promiseMap id with
      | some entry =>
        let st' := clearHandle st1 entry.responseTimeoutId
        { st' with promiseMap := aerase st'.promiseMap id }
      | none => st1
    ⟨st2, [], [], none⟩
  | .streamError id e =>
    let st1 :=
      if id ∈ st.streamMap then
        let tid := match alookup st.streams id with
          | some ss => ss.timeoutId
          | none => none
        let st' := clearHandle st tid
        { st' with streams := aupdate (setErr e) st'.streams id,
                   streamMap := st'.streamMap.erase id }
      else st
    let st2 :=
      match alookup st1.promiseMap id with
      | some entry =>
        let st' := clearHandle st1 entry.responseTimeoutId
        { st' with promiseMap := aerase st'.promiseMap id }
      | none => st1
    ⟨st2, [], [], none⟩

/-! ### Timer expiry -/

/-- Expiry of an ack timer (`_call` and `_callStream` arm the same body):
consult `onAckTimeoutError`, reject through the captured continuation,
delete the pending record (the stream record, if any, survives). -/
def fireAckTimer (cfg : Config) (st : State) (t : Timer) :
    State × List HCall :=
  let st0 := { st with armed := st.armed.erase t }
  let (rej, lg) := consultAckTimeoutHandler cfg t.method t.args
  let st1 := match rej with
    | some e => doReject st0 t.target t.id e
    | none => st0
  ({ st1 with promiseMap := aerase st1.promiseMap t.id }, lg)

/-- Expiry of a response timer (`startResponseTimeout`'s body): consult
`onTimeoutError`, reject, delete both records. -/
def fireRespTimer (cfg : Config) (st : State) (t : Timer) :
    State × List HCall :=
  let st0 := { st with armed := st.armed.erase t }
  let (rej, lg) := consultTimeoutHandler cfg t.method t.args
  let st1 := match rej with
    | some e => doReject st0 t.target t.id e
    | none => st0
  ({ st1 with promiseMap := aerase st1.promiseMap t.id,
              streamMap := st1.streamMap.erase t.id }, lg)

/-- Expiry of a stream's own response timer (armed by `startCall` when no
ack timeout is configured): consult `onTimeoutError`, feed the stream
closure's `error` sink, delete the stream record. -/
def fireStreamTimer (cfg : Config) (st : State) (t : Timer) :
    State × List HCall :=
  let st0 := { st with armed := st.armed.erase t }
  let (rej, lg) := consultTimeoutHandler cfg t.method t.args
  let st1 := match rej with
    | some e => { st0 with streams := aupdate (setErr e) st0.streams t.id }
    | none => st0
  ({ st1 with streamMap := st1.streamMap.erase t.id }, lg)

/-! ### Close and reject-pending -/

/-- `customError.cause ??= error`: chain the default error as cause when the
supplied error has no cause yet (non-Error values are left alone, as JS
cannot silently attach properties to primitives). -/
def chainCause (c d : JsValue) : JsValue :=
  match c with
  | .err m => .errC m d
  | x => x

/-- The `_rpcPromiseMap.forEach` of `$close`: clear both timers of each
record and reject it with the (mutated-in-place) custom error or a default
closed error; the threaded `Option JsValue` is the custom error object,
whose `cause` the first iteration may set. -/
def closePendingLoop :
    Option JsValue → List (String × PromiseEntry) → State →
    State × Option JsValue
  | custom, [], st => (st, custom)
  | custom, (id, e) :: rest, st =>
    let st1 := clearHandle (clearHandle st e.ackTimeoutId)
      e.responseTimeoutId
    let d := closedCallError e.method
    match custom with
    | none => closePendingLoop none rest (doReject st1 e.target id d)
    | some c =>
      let c2 := chainCause c d
      closePendingLoop (some c2) rest (doReject st1 e.target id c2)

/-- `customError || new Error("[birpc] rpc is closed, stream terminated")`. -/
def closeStreamVal (custom : Option JsValue) : JsValue :=
  match custom with
  | some c => if truthy c then c else streamClosedError
  | none => streamClosedError

/-- The timer handle held by a stream closure (`stream.timeoutId`). -/
def streamTid (st : State) (id : String) : Option Nat :=
  match alookup st.streams id with
  | some ss => ss.timeoutId
  | none => none

/-- The `_streamMap.forEach` of `$close`: clear each registered stream's
timer and feed its `error` sink. -/
def closeStreamsLoop (v : JsValue) : List String → State → State
  | [], st => st
  | id :: rest, st =>
    let st1 := clearHandle st (streamTid st id)
    let st2 := { st1 with streams := aupdate (setErr v) st1.streams id }
    closeStreamsLoop v rest st2

/-- Mirror of `$close`. -/
def closeRpc (st : State) (custom : Option JsValue) : State :=
  let st0 := { st with closed := true }
  let pl := closePendingLoop custom st0.promiseMap st0
  let st2 := { pl.1 with promiseMap := [] }
  let st3 := closeStreamsLoop (closeStreamVal pl.2) st2.streamMap st2
  { st3 with streamMap := [] }

/-- A user handler passed to `$rejectPendingCalls`, modelled by the error it
passes to `reject` for a given method (or `none` when it never rejects). -/
def PendingHandler := Option (String → Option JsValue)

/-- The `entries.map` of `$rejectPendingCalls`: reject each record through
the handler or with the default error.  No timer is cleared. -/
def rejectPendingLoop (handler : PendingHandler) :
    List (String × PromiseEntry) → State → State
  | [], st => st
  | (id, e) :: rest, st =>
    let st1 :=
      match handler with
      | none => doReject st e.target id (rejectedPendingError e.method)
      | some h =>
        match h e.method with
        | some ev => doReject st e.target id ev
        | none => st
    rejectPendingLoop handler rest st1

/-- Mirror of `$rejectPendingCalls`. -/
def rejectPendingCallsStep (handler : PendingHandler) (st : State) : State :=
  let st1 := rejectPendingLoop handler st.promiseMap st
  { st1 with promiseMap := [] }

/-! ### The stream-consumer iterator -/

/-- What one `next()` of the `_callStream` iterator does (given the call has
already started without `startError`). -/
inductive IterOut where
  | yieldv (v : JsValue)
  | finished
  | raise (e : JsValue)
  | wait
deriving DecidableEq, Repr

/-- Truthiness of the closure variable `error` (`!error` in the wait loop,
`if (error)` before raising). -/
def errTruthy (ss : StreamState) : Bool :=
  match ss.error with
  | some e => truthy e
  | none => false

/-- One `next()` on the closure state: wait while the queue is empty with no
terminal state; raise a truthy error; report completion when done and
drained; otherwise yield the queue head. -/
def iterNext (ss : StreamState) : StreamState × IterOut :=
  if ss.queue = [] ∧ ss.done = false ∧ errTruthy ss = false then (ss, .wait)
  else if errTruthy ss then (ss, .raise (ss.error.getD .undef))
  else if ss.done = true ∧ ss.queue = [] then (ss, .finished)
  else
    match ss.queue with
    | v :: rest => ({ ss with queue := rest }, .yieldv v)
    | [] => (ss, .wait)

/-- `next()` at the engine level: on raise or completion both records are
deleted (timers are not cleared). -/
def iterStep (st : State) (id : String) : State × IterOut :=
  match alookup st.streams id with
  | none => (st, .wait)
  | some ss =>
    let p := iterNext ss
    let st1 := { st with streams := aset st.streams id p.1 }
    match p.2 with
    | .raise e =>
      ({ st1 with streamMap := st1.streamMap.erase id,
                  promiseMap := aerase st1.promiseMap id }, .raise e)
    | .finished =>
      ({ st1 with streamMap := st1.streamMap.erase id,
                  promiseMap := aerase st1.promiseMap id }, .finished)
    | out => (st1, out)

/-- `return()` (early termination by the consumer): delete both records and
mark the closure done; no timer is cleared. -/
def iterReturnStep (st : State) (id : String) : State :=
  let st1 := { st with streamMap := st.streamMap.erase id,
                       promiseMap := aerase st.promiseMap id }
  { st1 with streams := aupdate setDone st1.streams id }

/-- The `finally` of `_call` after its promise settles: clear the two timer
handles held in the local variables and delete the record. -/
def callCleanup (st : State) (id : String) (h1 h2 : Option Nat) : State :=
  let st1 := clearHandle (clearHandle st h1) h2
  { st1 with promiseMap := aerase st1.promiseMap id }

/-! ### Reachable endpoint states -/

/-- A fresh `nanoid`: never seen by this endpoint before. -/
def freshId (st : State) (id : String) : Prop :=
  alookup st.cells id = none ∧ alookup st.streams id = none

/-- All states an endpoint can be in: every engine operation, message
delivery, timer expiry and consumer step, starting from the initial state. -/
inductive Reach (cfg : Config) : State → Prop where
  | init : Reach cfg initState
  | msg {s m} : Reach cfg s → Reach cfg (onMessage cfg s m).st
  | call {s id mth args opt} : Reach cfg s → freshId s id →
      Reach cfg (callStart cfg s id mth args opt).1
  | streamC {s id mth args} : Reach cfg s → freshId s id →
      Reach cfg (streamStart cfg s id mth args).1
  | fireA {s t} : Reach cfg s → t ∈ s.armed → t.kind = .ackT →
      Reach cfg (fireAckTimer cfg s t).1
  | fireR {s t} : Reach cfg s → t ∈ s.armed → t.kind = .respT →
      Reach cfg (fireRespTimer cfg s t).1
  | fireS {s t} : Reach cfg s → t ∈ s.armed → t.kind = .streamT →
      Reach cfg (fireStreamTimer cfg s t).1
  | close {s custom} : Reach cfg s → Reach cfg (closeRpc s custom)
  | rejp {s handler} : Reach cfg s →
      Reach cfg (rejectPendingCallsStep handler s)
  | iterA {s id} : Reach cfg s → Reach cfg (iterStep s id).1
  | iterR {s id} : Reach cfg s → Reach cfg (iterReturnStep s id)
  | cleanup {s id h1 h2} : Reach cfg s → Reach cfg (callCleanup s id h1 h2)

/-! ### Small facts about the state mutators -/

theorem clearHandle_cells (st : State) (h : Option Nat) :
    (clearHandle st h).cells = st.cells := by
  cases h <;> rfl

theorem clearHandle_streams (st : State) (h : Option Nat) :
    (clearHandle st h).streams = st.streams := by
  cases h <;> rfl

theorem clearHandle_promiseMap (st : State) (h : Option Nat) :
    (clearHandle st h).promiseMap = st.promiseMap := by
  cases h <;> rfl

theorem clearHandle_streamMap (st : State) (h : Option Nat) :
    (clearHandle st h).streamMap = st.streamMap := by
  cases h <;> rfl

theorem clearHandle_closed (st : State) (h : Option Nat) :
    (clearHandle st h).closed = st.closed := by
  cases h <;> rfl

/-- A minimal endpoint configuration: empty local tree, default timeouts, no
user handlers, reliable transport. -/
def baseConfig : Config :=
  { tree := .obj [], timeout := 60000, ackTimeout := none, resolver := none,
    onFunctionError := none, onGeneralError := none, onTimeoutError := none,
    onAckTimeoutError := none, postFail := fun _ => none }

/-! ### Claim C8 -/

/-- Claim C8: for a pending response-expecting call, a received Response
whose `e` field is falsy resolves the call with the `r` field even though
`e` is present; only a truthy `e` rejects. -/
theorem C8_falsy_error_resolves (cfg : Config) (st : State) (id : String)
    (p : PromiseEntry) (r e : JsValue)
    (hp : alookup st.promiseMap id = some p)
    (ht : p.target = Target.promise)
    (hc : alookup st.cells id = some none) :
    (truthy e = false →
      alookup (onMessage cfg st (.response id r e)).st.cells id =
        some (some (Outcome.resolved r))) ∧
    (truthy e = true →
      alookup (onMessage cfg st (.response id r e)).st.cells id =
        some (some (Outcome.rejected e))) := by
  constructor
  · intro hf
    simp only [onMessage, hp, hf, Bool.false_eq_true, if_false, doResolve, ht]
    rw [clearHandle_cells, clearHandle_cells]
    simp only [settleCell]
    rw [alookup_aupdate_self _ _ _ none hc]
  · intro hf
    simp only [onMessage, hp, hf, if_true, doReject, ht]
    rw [clearHandle_cells, clearHandle_cells]
    simp only [settleCell]
    rw [alookup_aupdate_self _ _ _ none hc]

def c8State : State :=
  { closed := false,
    promiseMap := [("i", ⟨"m", .promise, none, none, true⟩)],
    streamMap := [], cells := [("i", none)], streams := [], armed := [],
    nextH := 0 }

/-- Witness for C8 at a concrete pending call: `e = 0` resolves with `r`,
a truthy string `e` rejects. -/
theorem C8_falsy_error_resolves_witness :
    alookup (onMessage baseConfig c8State
        (.response "i" (.num 7) (.num 0))).st.cells "i" =
      some (some (Outcome.resolved (.num 7))) ∧
    alookup (onMessage baseConfig c8State
        (.response "i" (.num 7) (.str "boom"))).st.cells "i" =
      some (some (Outcome.rejected (.str "boom"))) :=
  ⟨(C8_falsy_error_resolves baseConfig c8State "i" ⟨"m", .promise, none, none,
      true⟩ (.num 7) (.num 0) rfl rfl rfl).1 rfl,
   (C8_falsy_error_resolves baseConfig c8State "i" ⟨"m", .promise, none, none,
      true⟩ (.num 7) (.str "boom") rfl rfl rfl).2 rfl⟩

/-! ### Claim C1 -/

theorem callStart_ok (cfg : Config) (st : State) (id m : String)
    (args : List JsValue) (o : Bool)
    (hcl : st.closed = false)
    (hpost : cfg.postFail (.request (some id) m args o) = none) :
    ∃ en : PromiseEntry,
      (callStart cfg st id m args o).1.cells = aset st.cells id none ∧
      (callStart cfg st id m args o).1.promiseMap =
        aset st.promiseMap id en ∧
      (callStart cfg st id m args o).1.closed = false ∧
      (callStart cfg st id m args o).2.1 = [.request (some id) m args o] ∧
      (callStart cfg st id m args o).2.2 = none ∧
      en.target = .promise ∧ en.method = m := by
  unfold callStart
  simp only [hcl, Bool.false_eq_true, if_false]
  by_cases hA : ackArmB cfg
  · refine ⟨⟨m, .promise, some st.nextH, none, ackRecInit cfg.ackTimeout⟩, ?_⟩
    simp [hA, armTimer, hpost]
  · by_cases hT : cfg.timeout < 0
    · refine ⟨⟨m, .promise, none, none, ackRecInit cfg.ackTimeout⟩, ?_⟩
      simp [hA, startResponseTimeout, hT, hpost]
    · refine ⟨⟨m, .promise, none, some st.nextH,
        ackRecInit cfg.ackTimeout⟩, ?_⟩
      simp [hA, startResponseTimeout, hT, armTimer, hpost]

theorem ackStep_preserves (cfg : Config) (st : State) (id : String)
    (en : PromiseEntry) (hp : alookup st.promiseMap id = some en) :
    (onMessage cfg st (.ack id)).st.cells = st.cells ∧
    ∃ en2 : PromiseEntry,
      alookup (onMessage cfg st (.ack id)).st.promiseMap id = some en2 ∧
      en2.target = en.target := by
  cases hA : en.ackReceived
  · by_cases hT : cfg.timeout < 0
    · simp only [onMessage, hp, hA, Bool.false_eq_true, if_false,
        startResponseTimeout, hT, if_true]
      refine ⟨by rw [clearHandle_cells], markAcked none en, ?_, rfl⟩
      rw [clearHandle_promiseMap]
      exact alookup_aupdate_self _ _ _ en hp
    · simp only [onMessage, hp, hA, Bool.false_eq_true, if_false,
        startResponseTimeout, hT, if_false, armTimer]
      refine ⟨by rw [clearHandle_cells],
        markAcked (some (clearHandle st en.ackTimeoutId).nextH) en, ?_, rfl⟩
      rw [clearHandle_promiseMap]
      exact alookup_aupdate_self _ _ _ en hp
  · have hstep : (onMessage cfg st (.ack id)).st = st := by
      simp only [onMessage, hp, hA, if_true]
    rw [hstep]
    exact ⟨rfl, en, hp, rfl⟩

theorem responseSettles (cfg : Config) (st : State) (id : String)
    (p : PromiseEntry) (r e : JsValue)
    (hp : alookup st.promiseMap id = some p)
    (ht : p.target = Target.promise)
    (hc : alookup st.cells id = some none) :
    alookup (onMessage cfg st (.response id r e)).st.cells id =
      some (some (if truthy e = true then Outcome.rejected e
        else Outcome.resolved r)) := by
  cases hf : truthy e
  · simp only [onMessage, hp, hf, Bool.false_eq_true, if_false, doResolve, ht]
    rw [clearHandle_cells, clearHandle_cells]
    simp only [settleCell]
    rw [alookup_aupdate_self _ _ _ none hc]
  · simp only [onMessage, hp, hf, if_true, doReject, ht]
    rw [clearHandle_cells, clearHandle_cells]
    simp only [settleCell]
    rw [alookup_aupdate_self _ _ _ none hc]

theorem caller_settles (cfg : Config) (st : State) (id m : String)
    (args : List JsValue) (o : Bool) (r e : JsValue)
    (hcl : st.closed = false)
    (hpost : cfg.postFail (.request (some id) m args o) = none) :
    alookup (onMessage cfg (onMessage cfg (callStart cfg st id m args o).1
        (.ack id)).st (.response id r e)).st.cells id =
      some (some (if truthy e = true then Outcome.rejected e
        else Outcome.resolved r)) := by
  obtain ⟨en, hcells, hpm, _, _, _, htgt, _⟩ :=
    callStart_ok cfg st id m args o hcl hpost
  have h1p : alookup (callStart cfg st id m args o).1.promiseMap id =
      some en := by
    rw [hpm]; exact alookup_aset_self _ _ _
  have h1c : alookup (callStart cfg st id m args o).1.cells id = some none := by
    rw [hcells]; exact alookup_aset_self _ _ _
  obtain ⟨h2c, en2, h2p, h2t⟩ :=
    ackStep_preserves cfg (callStart cfg st id m args o).1 id en h1p
  have h2cells : alookup (onMessage cfg (callStart cfg st id m args o).1
      (.ack id)).st.cells id = some none := by rw [h2c]; exact h1c
  exact responseSettles cfg _ id en2 r e h2p (h2t.trans htgt) h2cells

theorem handleRequest_found (cfg : Config) (id m : String) (a : List JsValue)
    (f : FnVal) (v : JsValue)
    (hid : id ≠ "")
    (hpR : ∀ msg, cfg.postFail msg = none)
    (hres : cfg.resolver = none)
    (hm : resolveNestedFunction cfg.tree m = some f)
    (hf : f a = FnOut.ret v) :
    handleRequest cfg (some id) m a false =
      ⟨[.ack id, .response id v .undef], [], none⟩ := by
  simp [handleRequest, idTruthy, hid, hpR, hres, hm, hf]

theorem handleRequest_notFound (cfg : Config) (id m : String)
    (a : List JsValue)
    (hid : id ≠ "")
    (hpR : ∀ msg, cfg.postFail msg = none)
    (hres : cfg.resolver = none)
    (hfe : cfg.onFunctionError = none)
    (hm : resolveNestedFunction cfg.tree m = none) :
    handleRequest cfg (some id) m a false =
      ⟨[.ack id, .response id .undef (notFoundError m)], [], none⟩ := by
  simp [handleRequest, idTruthy, hid, hpR, hres, hm, hfe, sendErrorResponse]

theorem handleRequest_optionalMissing (cfg : Config) (id m : String)
    (a : List JsValue)
    (hid : id ≠ "")
    (hpR : ∀ msg, cfg.postFail msg = none)
    (hres : cfg.resolver = none)
    (hm : resolveNestedFunction cfg.tree m = none) :
    handleRequest cfg (some id) m a true =
      ⟨[.ack id, .response id .undef .undef], [], none⟩ := by
  simp [handleRequest, idTruthy, hid, hpR, hres, hm]

/-- Claim C1: for every method path `p` and argument tuple `a`, if the
remote's local function tree has a function at `p` then the receiver posts
an Ack and a Response carrying exactly that function's return value, and
the caller's `$call` promise resolves with it; if there is no function at
`p`, `$call` rejects with the not-found error while `$callOptional`
(`o = true`, which substitutes a function returning undefined) resolves
with undefined. -/
theorem C1_call_resolution
    (cfgC cfgR : Config) (stC : State) (id p : String) (a : List JsValue)
    (v : JsValue) (f : FnVal)
    (hid : id ≠ "")
    (hcl : stC.closed = false)
    (hpC : ∀ msg, cfgC.postFail msg = none)
    (hpR : ∀ msg, cfgR.postFail msg = none)
    (hres : cfgR.resolver = none)
    (hfe : cfgR.onFunctionError = none) :
    (resolveNestedFunction cfgR.tree p = some f → f a = FnOut.ret v →
      handleRequest cfgR (some id) p a false =
        ⟨[.ack id, .response id v .undef], [], none⟩ ∧
      alookup (onMessage cfgC (onMessage cfgC
          (callStart cfgC stC id p a false).1 (.ack id)).st
          (.response id v .undef)).st.cells id =
        some (some (Outcome.resolved v))) ∧
    (resolveNestedFunction cfgR.tree p = none →
      handleRequest cfgR (some id) p a false =
        ⟨[.ack id, .response id .undef (notFoundError p)], [], none⟩ ∧
      alookup (onMessage cfgC (onMessage cfgC
          (callStart cfgC stC id p a false).1 (.ack id)).st
          (.response id .undef (notFoundError p))).st.cells id =
        some (some (Outcome.rejected (notFoundError p)))) ∧
    (resolveNestedFunction cfgR.tree p = none →
      handleRequest cfgR (some id) p a true =
        ⟨[.ack id, .response id .undef .undef], [], none⟩ ∧
      alookup (onMessage cfgC (onMessage cfgC
          (callStart cfgC stC id p a true).1 (.ack id)).st
          (.response id .undef .undef)).st.cells id =
        some (some (Outcome.resolved JsValue.undef))) := by
  refine ⟨fun hm hf => ⟨handleRequest_found cfgR id p a f v hid hpR hres hm hf,
      ?_⟩,
    fun hm => ⟨handleRequest_notFound cfgR id p a hid hpR hres hfe hm, ?_⟩,
    fun hm => ⟨handleRequest_optionalMissing cfgR id p a hid hpR hres hm, ?_⟩⟩
  · rw [caller_settles cfgC stC id p a false v .undef hcl (hpC _)]
    simp [truthy]
  · rw [caller_settles cfgC stC id p a false .undef (notFoundError p) hcl
      (hpC _)]
    simp [truthy, notFoundError]
  · rw [caller_settles cfgC stC id p a true .undef .undef hcl (hpC _)]
    simp [truthy]

def fC1 : FnVal := fun _ => FnOut.ret (.str "Hi Alice, I am Bob")

def cfgR1 : Config := { baseConfig with tree := .obj [("hi", .func fC1)] }

/-- Witness for C1: the basic-echo scenario at concrete inputs. -/
theorem C1_call_resolution_witness :
    (handleRequest cfgR1 (some "id1") "hi" [.str "Alice"] false =
      ⟨[.ack "id1",
        .response "id1" (.str "Hi Alice, I am Bob") .undef], [], none⟩ ∧
    alookup (onMessage baseConfig (onMessage baseConfig
        (callStart baseConfig initState "id1" "hi" [.str "Alice"] false).1
        (.ack "id1")).st
        (.response "id1" (.str "Hi Alice, I am Bob") .undef)).st.cells "id1" =
      some (some (Outcome.resolved (.str "Hi Alice, I am Bob")))) ∧
    (handleRequest cfgR1 (some "id2") "nope" [] false =
      ⟨[.ack "id2",
        .response "id2" .undef (notFoundError "nope")], [], none⟩ ∧
    alookup (onMessage baseConfig (onMessage baseConfig
        (callStart baseConfig initState "id2" "nope" [] false).1
        (.ack "id2")).st
        (.response "id2" .undef (notFoundError "nope"))).st.cells "id2" =
      some (some (Outcome.rejected (notFoundError "nope")))) :=
  ⟨(C1_call_resolution baseConfig cfgR1 initState "id1" "hi" [.str "Alice"]
      (.str "Hi Alice, I am Bob") fC1 (by decide) rfl (fun _ => rfl)
      (fun _ => rfl) rfl rfl).1 rfl rfl,
   (C1_call_resolution baseConfig cfgR1 initState "id2" "nope" []
      .undef fC1 (by decide) rfl (fun _ => rfl)
      (fun _ => rfl) rfl rfl).2.1 rfl⟩

/-! ### Claim C10 -/

/-- Claim C10: an inbound Ack, Response, StreamNext, StreamEnd or
StreamError frame whose id matches no pending-call record and no stream
record leaves the whole endpoint state unchanged (tables, closed flag,
armed timers), posts nothing, invokes no handler and throws nothing. -/
theorem C10_unmatched_frames_noop (cfg : Config) (st : State) (id : String)
    (r e v : JsValue)
    (hp : alookup st.promiseMap id = none)
    (hs : id ∉ st.streamMap) :
    onMessage cfg st (.ack id) = ⟨st, [], [], none⟩ ∧
    onMessage cfg st (.response id r e) = ⟨st, [], [], none⟩ ∧
    onMessage cfg st (.streamNext id v) = ⟨st, [], [], none⟩ ∧
    onMessage cfg st (.streamEnd id) = ⟨st, [], [], none⟩ ∧
    onMessage cfg st (.streamError id e) = ⟨st, [], [], none⟩ := by
  refine ⟨?_, ?_, ?_, ?_, ?_⟩
  · simp [onMessage, hp]
  · simp [onMessage, hp, aerase_of_absent st.promiseMap id hp]
  · simp [onMessage, hs]
  · simp [onMessage, hs, hp]
  · simp [onMessage, hs, hp]

def c10State : State :=
  { closed := false,
    promiseMap := [("other", ⟨"m", .promise, none, none, true⟩)],
    streamMap := ["os"], cells := [("other", none)],
    streams := [("os", ⟨[], false, none, none⟩)], armed := [], nextH := 0 }

/-- Witness for C10: an Ack for an unknown id is a complete no-op on a state
that does have unrelated records. -/
theorem C10_unmatched_frames_noop_witness :
    onMessage baseConfig c10State (.ack "zz") = ⟨c10State, [], [], none⟩ :=
  (C10_unmatched_frames_noop baseConfig c10State "zz" .undef .undef .undef
    rfl (by decide)).1

/-! ### More association-list facts -/

theorem alookup_aupdate {α : Type} (f : α → α) (l : List (String × α))
    (k : String) : alookup (aupdate f l k) k = (alookup l k).map f := by
  induction l with
  | nil => simp [aupdate, alookup]
  | cons p rest ih =>
    obtain ⟨k', w⟩ := p
    by_cases h : k' = k
    · subst h
      simp [aupdate, alookup]
    · simp [aupdate, alookup, h, ih]

theorem not_mem_keys_of_alookup_none {α : Type} (l : List (String × α))
    (k : String) (h : alookup l k = none) : k ∉ l.map Prod.fst := by
  induction l with
  | nil => simp
  | cons p rest ih =>
    obtain ⟨k', w⟩ := p
    simp only [alookup] at h
    by_cases hk : k' = k
    · simp [hk] at h
    · simp only [List.map_cons, List.mem_cons]
      push_neg
      exact ⟨fun hE => hk hE.symm, ih (by simpa [hk] using h)⟩

/-! ### Claim C5 -/

theorem doReject_streamMap (st : State) (tgt : Target) (id : String)
    (e : JsValue) : (doReject st tgt id e).streamMap = st.streamMap := by
  cases tgt <;> rfl

theorem doReject_armed (st : State) (tgt : Target) (id : String)
    (e : JsValue) : (doReject st tgt id e).armed = st.armed := by
  cases tgt <;> rfl

theorem doReject_closed (st : State) (tgt : Target) (id : String)
    (e : JsValue) : (doReject st tgt id e).closed = st.closed := by
  cases tgt <;> rfl

theorem doReject_promiseMap (st : State) (tgt : Target) (id : String)
    (e : JsValue) : (doReject st tgt id e).promiseMap = st.promiseMap := by
  cases tgt <;> rfl

/-- What the `$rejectPendingCalls` loop passes to each record's `reject`:
the default error, or whatever the supplied handler rejects with. -/
def pendingRejVal (hnd : PendingHandler) (m : String) : Option JsValue :=
  match hnd with
  | none => some (rejectedPendingError m)
  | some h => h m

/-- A single loop iteration, factored for the induction. -/
theorem rejectPendingLoop_cons (hnd : PendingHandler) (id : String)
    (e : PromiseEntry) (rest : List (String × PromiseEntry)) (st : State) :
    rejectPendingLoop hnd ((id, e) :: rest) st =
      rejectPendingLoop hnd rest
        (match pendingRejVal hnd e.method with
         | some ev => doReject st e.target id ev
         | none => st) := by
  cases hnd <;> simp [rejectPendingLoop, pendingRejVal]

theorem rejectPendingLoop_streamMap (hnd : PendingHandler)
    (l : List (String × PromiseEntry)) (st : State) :
    (rejectPendingLoop hnd l st).streamMap = st.streamMap := by
  induction l generalizing st with
  | nil => rfl
  | cons p rest ih =>
    obtain ⟨id, e⟩ := p
    rw [rejectPendingLoop_cons]
    cases pendingRejVal hnd e.method <;> simp [ih, doReject_streamMap]

theorem rejectPendingLoop_armed (hnd : PendingHandler)
    (l : List (String × PromiseEntry)) (st : State) :
    (rejectPendingLoop hnd l st).armed = st.armed := by
  induction l generalizing st with
  | nil => rfl
  | cons p rest ih =>
    obtain ⟨id, e⟩ := p
    rw [rejectPendingLoop_cons]
    cases pendingRejVal hnd e.method <;> simp [ih, doReject_armed]

theorem rejectPendingLoop_closed (hnd : PendingHandler)
    (l : List (String × PromiseEntry)) (st : State) :
    (rejectPendingLoop hnd l st).closed = st.closed := by
  induction l generalizing st with
  | nil => rfl
  | cons p rest ih =>
    obtain ⟨id, e⟩ := p
    rw [rejectPendingLoop_cons]
    cases pendingRejVal hnd e.method <;> simp [ih, doReject_closed]

theorem doReject_cells_ne (st : State) (tgt : Target) (id id2 : String)
    (e : JsValue) (hne : id2 ≠ id) :
    alookup (doReject st tgt id e).cells id2 = alookup st.cells id2 := by
  cases tgt
  · exact alookup_aupdate_ne _ _ _ _ hne
  · rfl

theorem doReject_streams_ne (st : State) (tgt : Target) (id id2 : String)
    (e : JsValue) (hne : id2 ≠ id) :
    alookup (doReject st tgt id e).streams id2 = alookup st.streams id2 := by
  cases tgt
  · rfl
  · exact alookup_aupdate_ne _ _ _ _ hne

theorem rejectPendingLoop_cells_notin (hnd : PendingHandler)
    (l : List (String × PromiseEntry)) (st : State) (id : String)
    (h : id ∉ l.map Prod.fst) :
    alookup (rejectPendingLoop hnd l st).cells id = alookup st.cells id := by
  induction l generalizing st with
  | nil => rfl
  | cons p rest ih =>
    obtain ⟨k, e⟩ := p
    simp only [List.map_cons, List.mem_cons] at h
    push_neg at h
    rw [rejectPendingLoop_cons]
    cases pendingRejVal hnd e.method with
    | none => exact ih _ h.2
    | some ev => rw [ih _ h.2, doReject_cells_ne _ _ _ _ _ h.1]

theorem rejectPendingLoop_streams_notin (hnd : PendingHandler)
    (l : List (String × PromiseEntry)) (st : State) (id : String)
    (h : id ∉ l.map Prod.fst) :
    alookup (rejectPendingLoop hnd l st).streams id =
      alookup st.streams id := by
  induction l generalizing st with
  | nil => rfl
  | cons p rest ih =>
    obtain ⟨k, e⟩ := p
    simp only [List.map_cons, List.mem_cons] at h
    push_neg at h
    rw [rejectPendingLoop_cons]
    cases pendingRejVal hnd e.method with
    | none => exact ih _ h.2
    | some ev => rw [ih _ h.2, doReject_streams_ne _ _ _ _ _ h.1]

theorem rejectPendingLoop_cells_promise (hnd : PendingHandler)
    (l : List (String × PromiseEntry)) (st : State)
    (hkeys : (l.map Prod.fst).Nodup)
    (pr : String × PromiseEntry) (hmem : pr ∈ l) (ev : JsValue)
    (ht : pr.2.target = Target.promise)
    (hev : pendingRejVal hnd pr.2.method = some ev)
    (hc : alookup st.cells pr.1 = some none) :
    alookup (rejectPendingLoop hnd l st).cells pr.1 =
      some (some (Outcome.rejected ev)) := by
  obtain ⟨pid, pe⟩ := pr
  simp only at ht hev hc ⊢
  induction l generalizing st with
  | nil => simp at hmem
  | cons p rest ih =>
    obtain ⟨k, e⟩ := p
    simp only [List.map_cons, List.nodup_cons] at hkeys
    rw [rejectPendingLoop_cons]
    rcases List.mem_cons.1 hmem with hEq | hRest
    · injection hEq with h1 h2
      subst h1
      subst h2
      rw [hev]
      have hkey : pid ∉ rest.map Prod.fst := hkeys.1
      rw [rejectPendingLoop_cells_notin hnd rest _ pid hkey]
      rw [ht]
      simp only [doReject, settleCell]
      rw [alookup_aupdate_self _ _ _ none hc]
    · have hne : pid ≠ k := by
        intro hE
        exact hkeys.1 (hE ▸ (List.mem_map.2 ⟨(pid, pe), hRest, rfl⟩))
      cases hv : pendingRejVal hnd e.method with
      | none => exact ih _ hkeys.2 hRest hc
      | some ev2 =>
        exact ih _ hkeys.2 hRest
          (by rw [doReject_cells_ne _ _ _ _ _ hne]; exact hc)

theorem rejectPendingLoop_streams_stream (hnd : PendingHandler)
    (l : List (String × PromiseEntry)) (st : State)
    (hkeys : (l.map Prod.fst).Nodup)
    (pr : String × PromiseEntry) (hmem : pr ∈ l) (ev : JsValue)
    (ht : pr.2.target = Target.stream)
    (hev : pendingRejVal hnd pr.2.method = some ev) :
    alookup (rejectPendingLoop hnd l st).streams pr.1 =
      (alookup st.streams pr.1).map (setErr ev) := by
  obtain ⟨pid, pe⟩ := pr
  simp only at ht hev ⊢
  induction l generalizing st with
  | nil => simp at hmem
  | cons p rest ih =>
    obtain ⟨k, e⟩ := p
    simp only [List.map_cons, List.nodup_cons] at hkeys
    rw [rejectPendingLoop_cons]
    rcases List.mem_cons.1 hmem with hEq | hRest
    · injection hEq with h1 h2
      subst h1
      subst h2
      rw [hev]
      have hkey : pid ∉ rest.map Prod.fst := hkeys.1
      rw [rejectPendingLoop_streams_notin hnd rest _ pid hkey]
      rw [ht]
      simp only [doReject]
      exact alookup_aupdate _ _ _
    · have hne : pid ≠ k := by
        intro hE
        exact hkeys.1 (hE ▸ (List.mem_map.2 ⟨(pid, pe), hRest, rfl⟩))
      cases hv : pendingRejVal hnd e.method with
      | none => exact ih _ hkeys.2 hRest
      | some ev2 =>
        rw [ih _ hkeys.2 hRest, doReject_streams_ne _ _ _ _ _ hne]

/-- Claim C5 (amended): `$rejectPendingCalls` fails every record of the
correlation table via the supplied handler or the default
"rejected pending call" error and clears the table; the stream table, the
armed timers and the closed flag are untouched, and stream closures with no
correlation record are untouched.  However a stream call still awaiting its
Ack owns a correlation record whose reject continuation is the stream's
error sink, so such a stream DOES observe the rejection error. -/
theorem C5_reject_pending_effects (hnd : PendingHandler) (st : State)
    (hkeys : (st.promiseMap.map Prod.fst).Nodup) :
    (rejectPendingCallsStep hnd st).promiseMap = [] ∧
    (rejectPendingCallsStep hnd st).streamMap = st.streamMap ∧
    (rejectPendingCallsStep hnd st).armed = st.armed ∧
    (rejectPendingCallsStep hnd st).closed = st.closed ∧
    (∀ pr ∈ st.promiseMap, ∀ ev, pr.2.target = Target.promise →
      pendingRejVal hnd pr.2.method = some ev →
      alookup st.cells pr.1 = some none →
      alookup (rejectPendingCallsStep hnd st).cells pr.1 =
        some (some (Outcome.rejected ev))) ∧
    (∀ pr ∈ st.promiseMap, ∀ ev, pr.2.target = Target.stream →
      pendingRejVal hnd pr.2.method = some ev →
      alookup (rejectPendingCallsStep hnd st).streams pr.1 =
        (alookup st.streams pr.1).map (setErr ev)) ∧
    (∀ id2, alookup st.promiseMap id2 = none →
      alookup (rejectPendingCallsStep hnd st).streams id2 =
        alookup st.streams id2) := by
  refine ⟨rfl, ?_, ?_, ?_, ?_, ?_, ?_⟩
  · exact rejectPendingLoop_streamMap hnd st.promiseMap st
  · exact rejectPendingLoop_armed hnd st.promiseMap st
  · exact rejectPendingLoop_closed hnd st.promiseMap st
  · intro pr hmem ev ht hev hc
    exact rejectPendingLoop_cells_promise hnd st.promiseMap st hkeys pr hmem
      ev ht hev hc
  · intro pr hmem ev ht hev
    exact rejectPendingLoop_streams_stream hnd st.promiseMap st hkeys pr hmem
      ev ht hev
  · intro id2 hid2
    exact rejectPendingLoop_streams_notin hnd st.promiseMap st id2
      (not_mem_keys_of_alookup_none _ _ hid2)

def cfg5 : Config := { baseConfig with ackTimeout := some 100 }

/-- Counterexample to C5 as stated: with an ack timeout configured, start a
stream call (its ack record's reject continuation is the stream's error
sink) and call `$rejectPendingCalls` with no handler — the stream closure
observes the "rejected pending call" error, so it is not true that no
stream observes an error from this operation. -/
theorem C5_stream_affected_cex :
    alookup (rejectPendingCallsStep none
        (streamStart cfg5 initState "s" "m" []).1).streams "s" =
      some ⟨[], false, some (rejectedPendingError "m"), none⟩ := by
  rfl

def c5WState : State :=
  { closed := false,
    promiseMap := [("i", ⟨"m", .promise, none, none, true⟩)],
    streamMap := ["os"], cells := [("i", none)],
    streams := [("os", ⟨[], false, none, none⟩)], armed := [], nextH := 0 }

/-- Witness for the amended C5 at a concrete state: a promise-target record
is rejected with the default error and the table cleared, while an
unrelated stream closure is untouched. -/
theorem C5_reject_pending_effects_witness :
    (rejectPendingCallsStep none c5WState).promiseMap = [] ∧
    alookup (rejectPendingCallsStep none c5WState).cells "i" =
      some (some (Outcome.rejected (rejectedPendingError "m"))) ∧
    alookup (rejectPendingCallsStep none c5WState).streams "os" =
      alookup c5WState.streams "os" :=
  ⟨(C5_reject_pending_effects none c5WState (by decide)).1,
   (C5_reject_pending_effects none c5WState (by decide)).2.2.2.2.1
     ("i", ⟨"m", .promise, none, none, true⟩) (by decide)
     (rejectedPendingError "m") rfl rfl rfl,
   (C5_reject_pending_effects none c5WState (by decide)).2.2.2.2.2.2
     "os" rfl⟩

/-! ### Claim C6 -/

/-- Claim C6 (amended): when posting (or serializing) the success Response
fails, the receiver retries exactly once by emitting a Response for the same
id whose `e` field carries the failure — but only when the general-error
handler returns true, suppressing the throw; when no handler is configured
(or it does not return true) the failure is thrown out of `onMessage` and no
retry frame is emitted. -/
theorem C6_response_retry (cfg : Config) (id m : String) (a : List JsValue)
    (f : FnVal) (v : JsValue) (fe : JsValue)
    (hid : id ≠ "")
    (hres : cfg.resolver = none)
    (hm : resolveNestedFunction cfg.tree m = some f)
    (hf : f a = FnOut.ret v)
    (hack : cfg.postFail (.ack id) = none)
    (hfail : cfg.postFail (.response id v .undef) = some fe)
    (hretry : cfg.postFail (.response id .undef fe) = none) :
    (∀ h, cfg.onGeneralError = some h → h fe = .ret (.bool true) →
      handleRequest cfg (some id) m a false =
        ⟨[.ack id, .response id .undef fe],
          [⟨.generalErrorH, "", []⟩], none⟩) ∧
    (cfg.onGeneralError = none →
      handleRequest cfg (some id) m a false =
        ⟨[.ack id], [], some fe⟩) := by
  constructor
  · intro h hh hsup
    simp [handleRequest, idTruthy, hid, hack, hres, hm, hf, hfail,
      consultGeneralError, hh, hsup, sendErrorResponse, hretry]
  · intro hge
    simp [handleRequest, idTruthy, hid, hack, hres, hm, hf, hfail,
      consultGeneralError, hge]

def fC6 : FnVal := fun _ => FnOut.ret (.num 1)

def cfg6 : Config := { baseConfig with
  tree := .obj [("hi", .func fC6)],
  postFail := fun msg => match msg with
    | .response _ _ e => if truthy e then none else some (.str "ser")
    | _ => none }

/-- Counterexample to C6 as stated: no general-error handler is configured,
the post of the success Response fails (while a Response carrying a truthy
`e` would succeed) — the receiver emits no retry Response at all; it throws
the failure after posting only the Ack. -/
theorem C6_no_retry_cex :
    handleRequest cfg6 (some "i") "hi" [] false =
      ⟨[.ack "i"], [], some (.str "ser")⟩ := by
  rfl

def cfg6s : Config := { cfg6 with
  onGeneralError := some (fun _ => .ret (.bool true)) }

/-- Witness for the amended C6: with a suppressing general-error handler the
retry Response carrying the failure is emitted exactly once. -/
theorem C6_response_retry_witness :
    handleRequest cfg6s (some "i") "hi" [] false =
      ⟨[.ack "i", .response "i" .undef (.str "ser")],
        [⟨.generalErrorH, "", []⟩], none⟩ :=
  (C6_response_retry cfg6s "i" "hi" [] fC6 (.num 1) (.str "ser")
    (by decide) rfl rfl rfl rfl rfl rfl).1
    (fun _ => .ret (.bool true)) rfl rfl

/-! ### Claim C7 -/

theorem streamEnd_effect (cfg : Config) (st : State) (id : String)
    (ss : StreamState)
    (hmem : id ∈ st.streamMap)
    (hss : alookup st.streams id = some ss) :
    alookup (onMessage cfg st (.streamEnd id)).st.streams id =
      some (setDone ss) ∧
    (onMessage cfg st (.streamEnd id)).st.streamMap =
      st.streamMap.erase id := by
  simp only [onMessage, hmem, if_true, hss]
  cases hE : alookup (clearHandle st ss.timeoutId).promiseMap id
  · constructor
    · rw [clearHandle_streams, alookup_aupdate, hss]
      rfl
    · rw [clearHandle_streamMap]
  · constructor
    · rw [clearHandle_streams, clearHandle_streams, alookup_aupdate, hss]
      rfl
    · rw [clearHandle_streamMap, clearHandle_streamMap]

/-- Deliver a sequence of StreamNext frames for one id. -/
def feedNexts (cfg : Config) (id : String) (vs : List JsValue) (st : State) :
    State :=
  vs.foldl (fun s v => (onMessage cfg s (.streamNext id v)).st) st

theorem feedNexts_state (cfg : Config) (id : String) (vs : List JsValue) :
    ∀ (st : State) (q0 : List JsValue) (tid : Option Nat),
    id ∈ st.streamMap →
    alookup st.streams id = some ⟨q0, false, none, tid⟩ →
    (feedNexts cfg id vs st).streamMap = st.streamMap ∧
    alookup (feedNexts cfg id vs st).streams id =
      some ⟨q0 ++ vs, false, none, tid⟩ := by
  induction vs with
  | nil =>
    intro st q0 tid hmem hss
    exact ⟨rfl, by simpa using hss⟩
  | cons v rest ih =>
    intro st q0 tid hmem hss
    have hstep : (onMessage cfg st (.streamNext id v)).st =
        { st with streams := aupdate (pushVal v) st.streams id } := by
      simp [onMessage, hmem]
    have hfold : feedNexts cfg id (v :: rest) st =
        feedNexts cfg id rest (onMessage cfg st (.streamNext id v)).st := rfl
    rw [hfold, hstep]
    have hss2 : alookup (aupdate (pushVal v) st.streams id) id =
        some ⟨q0 ++ [v], false, none, tid⟩ := by
      rw [alookup_aupdate, hss]
      rfl
    obtain ⟨h1, h2⟩ :=
      ih { st with streams := aupdate (pushVal v) st.streams id }
        (q0 ++ [v]) tid hmem hss2
    refine ⟨h1, ?_⟩
    rw [h2]
    simp

/-- The trace of the first `n` iterator advancements. -/
def iterTrace : Nat → StreamState → List IterOut
  | 0, _ => []
  | n + 1, ss => (iterNext ss).2 :: iterTrace n (iterNext ss).1

theorem iterTrace_done (tid : Option Nat) :
    ∀ (q : List JsValue) (n : Nat),
    iterTrace (q.length + n) ⟨q, true, none, tid⟩ =
      q.map IterOut.yieldv ++ List.replicate n IterOut.finished := by
  intro q
  induction q with
  | nil =>
    have hrep : ∀ k, iterTrace k ⟨[], true, none, tid⟩ =
        List.replicate k IterOut.finished := by
      intro k
      induction k with
      | zero => rfl
      | succ k2 ihn =>
        have hstep : iterNext ⟨[], true, none, tid⟩ =
            (⟨[], true, none, tid⟩, .finished) := by
          simp [iterNext, errTruthy]
        simp [iterTrace, hstep, ihn, List.replicate_succ]
    intro n
    simpa using hrep n
  | cons v q ihq =>
    intro n
    have hstep : iterNext ⟨v :: q, true, none, tid⟩ =
        (⟨q, true, none, tid⟩, .yieldv v) := by
      simp [iterNext, errTruthy]
    have hlen : (v :: q).length + n = (q.length + n) + 1 := by
      simp [Nat.succ_add]
    rw [hlen]
    simp only [iterTrace, hstep]
    rw [ihq n]
    rfl

theorem iterNext_state (ss : StreamState) :
    (iterNext ss).1.done = ss.done ∧ (iterNext ss).1.error = ss.error := by
  unfold iterNext
  split
  · exact ⟨rfl, rfl⟩
  · split
    · exact ⟨rfl, rfl⟩
    · split
      · exact ⟨rfl, rfl⟩
      · cases hq : ss.queue
        · exact ⟨rfl, rfl⟩
        · exact ⟨rfl, rfl⟩

/-- Claim C7: the consuming iterator yields received StreamNext values in
exactly receipt order (the queue is FIFO); after StreamEnd the closure is
done with the buffered queue intact, and the consumer drains every buffered
value before reporting completion and never yields after reporting
terminal-done (the trace is the buffered values in order followed only by
`finished`); a StreamNext for an unregistered id delivers nothing; and no
stream operation ever unsets `done` or the error value. -/
theorem C7_stream_order (cfg : Config) (st : State) (id : String)
    (vs q0 : List JsValue) (tid : Option Nat) (n : Nat)
    (hmem : id ∈ st.streamMap)
    (hss : alookup st.streams id = some ⟨q0, false, none, tid⟩) :
    (alookup (onMessage cfg (feedNexts cfg id vs st)
        (.streamEnd id)).st.streams id = some ⟨q0 ++ vs, true, none, tid⟩) ∧
    ((onMessage cfg (feedNexts cfg id vs st) (.streamEnd id)).st.streamMap =
      st.streamMap.erase id) ∧
    (∀ q : List JsValue, iterTrace (q.length + n) ⟨q, true, none, tid⟩ =
      q.map IterOut.yieldv ++ List.replicate n IterOut.finished) ∧
    (∀ (s2 : State) (v : JsValue), id ∉ s2.streamMap →
      (onMessage cfg s2 (.streamNext id v)).st = s2) ∧
    (∀ (ss : StreamState) (v e : JsValue),
      (pushVal v ss).done = ss.done ∧ (pushVal v ss).error = ss.error ∧
      (setDone ss).done = true ∧ (setDone ss).error = ss.error ∧
      (setErr e ss).done = ss.done ∧ (setErr e ss).error = some e ∧
      (iterNext ss).1.done = ss.done ∧ (iterNext ss).1.error = ss.error) := by
  obtain ⟨hmap, hq⟩ := feedNexts_state cfg id vs st q0 tid hmem hss
  have hmem2 : id ∈ (feedNexts cfg id vs st).streamMap := by
    rw [hmap]; exact hmem
  obtain ⟨hend1, hend2⟩ :=
    streamEnd_effect cfg (feedNexts cfg id vs st) id ⟨q0 ++ vs, false, none,
      tid⟩ hmem2 hq
  refine ⟨hend1, by rw [hend2, hmap], fun q => iterTrace_done tid q n, ?_, ?_⟩
  · intro s2 v hnot
    simp [onMessage, hnot]
  · intro ss v e
    exact ⟨rfl, rfl, rfl, rfl, rfl, rfl, (iterNext_state ss).1,
      (iterNext_state ss).2⟩

def c7State : State :=
  { closed := false, promiseMap := [], streamMap := ["s"],
    cells := [], streams := [("s", ⟨[], false, none, none⟩)],
    armed := [], nextH := 0 }

/-- Witness for C7: two values are received, StreamEnd arrives, and the
consumer's trace is exactly those two values in order followed by
completion. -/
theorem C7_stream_order_witness :
    alookup (onMessage baseConfig
        (feedNexts baseConfig "s" [.num 1, .num 2] c7State)
        (.streamEnd "s")).st.streams "s" =
      some ⟨[.num 1, .num 2], true, none, none⟩ ∧
    iterTrace 3 ⟨[.num 1, .num 2], true, none, none⟩ =
      [.yieldv (.num 1), .yieldv (.num 2), .finished] :=
  ⟨(C7_stream_order baseConfig c7State "s" [.num 1, .num 2] [] none 1
      (by decide) rfl).1,
   (C7_stream_order baseConfig c7State "s" [.num 1, .num 2] [] none 1
      (by decide) rfl).2.2.1 [.num 1, .num 2]⟩

/-! ### Claim C9 -/

theorem streamError_effect (cfg : Config) (st : State) (id : String)
    (e : JsValue) (ss : StreamState)
    (hmem : id ∈ st.streamMap)
    (hss : alookup st.streams id = some ss) :
    alookup (onMessage cfg st (.streamError id e)).st.streams id =
      some (setErr e ss) ∧
    (onMessage cfg st (.streamError id e)).st.streamMap =
      st.streamMap.erase id := by
  simp only [onMessage, hmem, if_true, hss]
  cases hE : alookup (clearHandle st ss.timeoutId).promiseMap id
  · constructor
    · rw [clearHandle_streams, alookup_aupdate, hss]
      rfl
    · rw [clearHandle_streamMap]
  · constructor
    · rw [clearHandle_streams, clearHandle_streams, alookup_aupdate, hss]
      rfl
    · rw [clearHandle_streamMap, clearHandle_streamMap]

/-- Claim C9 (amended): a StreamError received while values are buffered is
stored in the closure and unregisters the stream; the consumer's next
advancement raises the error immediately — discarding the buffered values,
which are never delivered since the error persists — provided the error
value is truthy.  A falsy StreamError value is never raised: the consumer
keeps draining buffered values. -/
theorem C9_stream_error_raise (cfg : Config) (st : State) (id : String)
    (e : JsValue) (ss : StreamState)
    (hmem : id ∈ st.streamMap)
    (hss : alookup st.streams id = some ss) :
    (alookup (onMessage cfg st (.streamError id e)).st.streams id =
      some (setErr e ss) ∧
     (onMessage cfg st (.streamError id e)).st.streamMap =
      st.streamMap.erase id) ∧
    (truthy e = true → ∀ (q : List JsValue) (d : Bool) (tid : Option Nat),
      iterNext ⟨q, d, some e, tid⟩ = (⟨q, d, some e, tid⟩, .raise e)) ∧
    (truthy e = false → ∀ (v : JsValue) (q : List JsValue) (tid : Option Nat),
      iterNext ⟨v :: q, false, some e, tid⟩ =
        (⟨q, false, some e, tid⟩, .yieldv v)) := by
  refine ⟨streamError_effect cfg st id e ss hmem hss, ?_, ?_⟩
  · intro ht q d tid
    simp [iterNext, errTruthy, ht]
  · intro ht v q tid
    simp [iterNext, errTruthy, ht]

def c9State : State :=
  { closed := false, promiseMap := [], streamMap := ["s"],
    cells := [], streams := [("s", ⟨[.num 1], false, none, none⟩)],
    armed := [], nextH := 0 }

/-- Counterexample to C9 as stated: a StreamError with the falsy value `0`
arrives while `1` is buffered; the consumer's next advancement yields the
buffered `1` instead of raising the error. -/
theorem C9_falsy_stream_error_cex :
    (iterStep (onMessage baseConfig c9State (.streamError "s" (.num 0))).st
      "s").2 = IterOut.yieldv (.num 1) := by
  rfl

/-- Witness for the amended C9 at a concrete state: a truthy StreamError is
stored, the stream unregistered, and the next advancement raises it even
with a buffered value present. -/
theorem C9_stream_error_raise_witness :
    alookup (onMessage baseConfig c9State
        (.streamError "s" (.str "bad"))).st.streams "s" =
      some (setErr (.str "bad") ⟨[.num 1], false, none, none⟩) ∧
    iterNext ⟨[.num 1], false, some (.str "bad"), none⟩ =
      (⟨[.num 1], false, some (.str "bad"), none⟩, .raise (.str "bad")) :=
  ⟨(C9_stream_error_raise baseConfig c9State "s" (.str "bad")
      ⟨[.num 1], false, none, none⟩ (by decide) rfl).1.1,
   (C9_stream_error_raise baseConfig c9State "s" (.str "bad")
      ⟨[.num 1], false, none, none⟩ (by decide) rfl).2.1 rfl
      [.num 1] false none⟩

/-! ### Claim C4 -/

/-- What the expiry body rejects with, as a function of the handler's
result: `true` suppresses, any other return falls to the default error, a
throw substitutes the thrown error. -/
def handlerVerdict (r : HRes) (d : JsValue) : Option JsValue :=
  match r with
  | .ret (.bool true) => none
  | .ret _ => some d
  | .thr e => some e

theorem handlerVerdict_ret_ne (w d : JsValue) (hw : w ≠ JsValue.bool true) :
    handlerVerdict (.ret w) d = some d := by
  rcases w with _ | _ | b | _ | _ | _ | ⟨_, _⟩ <;> try rfl
  cases b
  · rfl
  · exact absurd rfl hw

theorem consultTimeoutHandler_eq (cfg : Config) (m : String)
    (args : List JsValue) (h : String → List JsValue → HRes)
    (hh : cfg.onTimeoutError = some h) :
    consultTimeoutHandler cfg m args =
      (handlerVerdict (h m args) (timeoutError m), [⟨.timeoutH, m, args⟩]) := by
  simp only [consultTimeoutHandler, hh]
  rcases hv : h m args with w | e2
  · rcases w with _ | _ | b | _ | _ | _ | ⟨_, _⟩ <;> try rfl
    cases b <;> rfl
  · rfl

theorem consultAckTimeoutHandler_eq (cfg : Config) (m : String)
    (args : List JsValue) (h : String → List JsValue → HRes)
    (hh : cfg.onAckTimeoutError = some h) :
    consultAckTimeoutHandler cfg m args =
      (handlerVerdict (h m args) (ackTimeoutError m),
        [⟨.ackTimeoutH, m, args⟩]) := by
  simp only [consultAckTimeoutHandler, hh]
  rcases hv : h m args with w | e2
  · rcases w with _ | _ | b | _ | _ | _ | ⟨_, _⟩ <;> try rfl
    cases b <;> rfl
  · rfl

theorem fireRespTimer_spec (cfg : Config) (st : State) (t : Timer)
    (h : String → List JsValue → HRes)
    (hh : cfg.onTimeoutError = some h)
    (ht : t.target = Target.promise)
    (hc : alookup st.cells t.id = some none) :
    (fireRespTimer cfg st t).2 = [⟨.timeoutH, t.method, t.args⟩] ∧
    (h t.method t.args = .ret (.bool true) →
      alookup (fireRespTimer cfg st t).1.cells t.id = some none) ∧
    (∀ w, h t.method t.args = .ret w → w ≠ .bool true →
      alookup (fireRespTimer cfg st t).1.cells t.id =
        some (some (Outcome.rejected (timeoutError t.method)))) ∧
    (∀ e2, h t.method t.args = .thr e2 →
      alookup (fireRespTimer cfg st t).1.cells t.id =
        some (some (Outcome.rejected e2))) := by
  refine ⟨?_, ?_, ?_, ?_⟩
  · simp [fireRespTimer, consultTimeoutHandler_eq cfg t.method t.args h hh]
  · intro hv
    simp only [fireRespTimer,
      consultTimeoutHandler_eq cfg t.method t.args h hh, hv, handlerVerdict]
    exact hc
  · intro w hv hw
    simp only [fireRespTimer,
      consultTimeoutHandler_eq cfg t.method t.args h hh, hv,
      handlerVerdict_ret_ne w _ hw, doReject, ht, settleCell]
    rw [alookup_aupdate_self _ _ _ none hc]
  · intro e2 hv
    simp only [fireRespTimer,
      consultTimeoutHandler_eq cfg t.method t.args h hh, hv, handlerVerdict,
      doReject, ht, settleCell]
    rw [alookup_aupdate_self _ _ _ none hc]

theorem fireAckTimer_spec (cfg : Config) (st : State) (t : Timer)
    (h : String → List JsValue → HRes)
    (hh : cfg.onAckTimeoutError = some h)
    (ht : t.target = Target.promise)
    (hc : alookup st.cells t.id = some none) :
    (fireAckTimer cfg st t).2 = [⟨.ackTimeoutH, t.method, t.args⟩] ∧
    (h t.method t.args = .ret (.bool true) →
      alookup (fireAckTimer cfg st t).1.cells t.id = some none) ∧
    (∀ w, h t.method t.args = .ret w → w ≠ .bool true →
      alookup (fireAckTimer cfg st t).1.cells t.id =
        some (some (Outcome.rejected (ackTimeoutError t.method)))) ∧
    (∀ e2, h t.method t.args = .thr e2 →
      alookup (fireAckTimer cfg st t).1.cells t.id =
        some (some (Outcome.rejected e2))) := by
  refine ⟨?_, ?_, ?_, ?_⟩
  · simp [fireAckTimer, consultAckTimeoutHandler_eq cfg t.method t.args h hh]
  · intro hv
    simp only [fireAckTimer,
      consultAckTimeoutHandler_eq cfg t.method t.args h hh, hv,
      handlerVerdict]
    exact hc
  · intro w hv hw
    simp only [fireAckTimer,
      consultAckTimeoutHandler_eq cfg t.method t.args h hh, hv,
      handlerVerdict_ret_ne w _ hw, doReject, ht, settleCell]
    rw [alookup_aupdate_self _ _ _ none hc]
  · intro e2 hv
    simp only [fireAckTimer,
      consultAckTimeoutHandler_eq cfg t.method t.args h hh, hv,
      handlerVerdict, doReject, ht, settleCell]
    rw [alookup_aupdate_self _ _ _ none hc]

theorem handleRequest_funcError (cfg : Config) (id m : String)
    (a : List JsValue) (f : FnVal) (fe : JsValue)
    (h : JsValue → String → List JsValue → HRes)
    (hid : id ≠ "") (hack : cfg.postFail (.ack id) = none)
    (hres : cfg.resolver = none)
    (hm : resolveNestedFunction cfg.tree m = some f)
    (hf : f a = FnOut.thr fe)
    (hh : cfg.onFunctionError = some h) :
    (h fe m a = .ret (.bool true) →
      handleRequest cfg (some id) m a false =
        ⟨[.ack id], [⟨.functionErrorH, m, a⟩], none⟩) ∧
    (∀ e2, h fe m a = .thr e2 →
      handleRequest cfg (some id) m a false =
        ⟨[.ack id], [⟨.functionErrorH, m, a⟩], some e2⟩) ∧
    (∀ w, h fe m a = .ret w → w ≠ .bool true →
      cfg.postFail (.response id .undef fe) = none →
      handleRequest cfg (some id) m a false =
        ⟨[.ack id, .response id .undef fe],
          [⟨.functionErrorH, m, a⟩], none⟩) := by
  refine ⟨?_, ?_, ?_⟩
  · intro hv
    simp [handleRequest, idTruthy, hid, hack, hres, hm, hf, hh, hv]
  · intro e2 hv
    simp [handleRequest, idTruthy, hid, hack, hres, hm, hf, hh, hv]
  · intro w hv hw hrp
    rcases w with _ | _ | b | _ | _ | _ | ⟨_, _⟩
    · simp [handleRequest, idTruthy, hid, hack, hres, hm, hf, hh, hv,
        sendErrorResponse, hrp]
    · simp [handleRequest, idTruthy, hid, hack, hres, hm, hf, hh, hv,
        sendErrorResponse, hrp]
    · cases b
      · simp [handleRequest, idTruthy, hid, hack, hres, hm, hf, hh, hv,
          sendErrorResponse, hrp]
      · exact absurd rfl hw
    · simp [handleRequest, idTruthy, hid, hack, hres, hm, hf, hh, hv,
        sendErrorResponse, hrp]
    · simp [handleRequest, idTruthy, hid, hack, hres, hm, hf, hh, hv,
        sendErrorResponse, hrp]
    · simp [handleRequest, idTruthy, hid, hack, hres, hm, hf, hh, hv,
        sendErrorResponse, hrp]
    · simp [handleRequest, idTruthy, hid, hack, hres, hm, hf, hh, hv,
        sendErrorResponse, hrp]

/-- Claim C4 (amended): the ack-timeout handler and the function-error
handler receive the method path and the original arguments; the timeout
handler receives the method path and the original arguments when the
response timer was armed at call time, but an EMPTY argument list when the
timer was armed upon Ack receipt; returning true suppresses the default
error; a throwing timeout/ack-timeout handler substitutes the thrown error
as the rejection; a throwing function-error handler does not substitute —
the thrown error propagates out of `onMessage` and no Response is posted. -/
theorem C4_handler_contract (cfg : Config) (st : State) (id m : String)
    (a : List JsValue) (o : Bool) (t : Timer) (f : FnVal) (fe : JsValue) :
    (st.closed = false → ackArmB cfg = true →
      cfg.postFail (.request (some id) m a o) = none →
      (callStart cfg st id m a o).1.armed =
        st.armed ++ [⟨st.nextH, .ackT, id, m, a, .promise⟩]) ∧
    (st.closed = false → ackArmB cfg = false → ¬ cfg.timeout < 0 →
      cfg.postFail (.request (some id) m a o) = none →
      (callStart cfg st id m a o).1.armed =
        st.armed ++ [⟨st.nextH, .respT, id, m, a, .promise⟩]) ∧
    (∀ en : PromiseEntry, alookup st.promiseMap id = some en →
      en.ackReceived = false → ¬ cfg.timeout < 0 →
      (onMessage cfg st (.ack id)).st.armed =
        (clearHandle st en.ackTimeoutId).armed ++
          [⟨(clearHandle st en.ackTimeoutId).nextH, .respT, id, en.method,
            [], en.target⟩]) ∧
    (∀ h, cfg.onTimeoutError = some h → t.target = Target.promise →
      alookup st.cells t.id = some none →
      (fireRespTimer cfg st t).2 = [⟨.timeoutH, t.method, t.args⟩] ∧
      (h t.method t.args = .ret (.bool true) →
        alookup (fireRespTimer cfg st t).1.cells t.id = some none) ∧
      (∀ e2, h t.method t.args = .thr e2 →
        alookup (fireRespTimer cfg st t).1.cells t.id =
          some (some (Outcome.rejected e2)))) ∧
    (∀ h, cfg.onAckTimeoutError = some h → t.target = Target.promise →
      alookup st.cells t.id = some none →
      (fireAckTimer cfg st t).2 = [⟨.ackTimeoutH, t.method, t.args⟩] ∧
      (h t.method t.args = .ret (.bool true) →
        alookup (fireAckTimer cfg st t).1.cells t.id = some none) ∧
      (∀ e2, h t.method t.args = .thr e2 →
        alookup (fireAckTimer cfg st t).1.cells t.id =
          some (some (Outcome.rejected e2)))) ∧
    (∀ h, id ≠ "" → cfg.postFail (.ack id) = none → cfg.resolver = none →
      resolveNestedFunction cfg.tree m = some f → f a = FnOut.thr fe →
      cfg.onFunctionError = some h →
      (h fe m a = .ret (.bool true) →
        handleRequest cfg (some id) m a false =
          ⟨[.ack id], [⟨.functionErrorH, m, a⟩], none⟩) ∧
      (∀ e2, h fe m a = .thr e2 →
        handleRequest cfg (some id) m a false =
          ⟨[.ack id], [⟨.functionErrorH, m, a⟩], some e2⟩)) := by
  refine ⟨?_, ?_, ?_, ?_, ?_, ?_⟩
  · intro hcl hA hpost
    simp [callStart, hcl, hA, armTimer, hpost]
  · intro hcl hA hT hpost
    simp [callStart, hcl, hA, startResponseTimeout, hT, armTimer, hpost]
  · intro en hp hA hT
    simp [onMessage, hp, hA, startResponseTimeout, hT, armTimer]
  · intro h hh ht hc
    obtain ⟨h1, h2, _, h4⟩ := fireRespTimer_spec cfg st t h hh ht hc
    exact ⟨h1, h2, h4⟩
  · intro h hh ht hc
    obtain ⟨h1, h2, _, h4⟩ := fireAckTimer_spec cfg st t h hh ht hc
    exact ⟨h1, h2, h4⟩
  · intro h hid hack hres hm hf hh
    obtain ⟨h1, h2, _⟩ :=
      handleRequest_funcError cfg id m a f fe h hid hack hres hm hf hh
    exact ⟨h1, h2⟩

def cfg4 : Config :=
  { baseConfig with
    ackTimeout := some 100
    onTimeoutError := some (fun _ _ => .ret (.bool false)) }

/-- Counterexample to C4 as stated: with an ack timeout configured, a call
with argument list `["x"]` is acknowledged; the response timer armed on Ack
receipt captures an empty argument list, so when it fires the timeout
handler receives `[]`, not the original arguments. -/
theorem C4_timeout_handler_empty_args_cex :
    (onMessage cfg4 (callStart cfg4 initState "i" "m" [.str "x"] false).1
       (.ack "i")).st.armed =
      [⟨1, .respT, "i", "m", [], .promise⟩] ∧
    (fireRespTimer cfg4
        (onMessage cfg4 (callStart cfg4 initState "i" "m" [.str "x"]
          false).1 (.ack "i")).st
        ⟨1, .respT, "i", "m", [], .promise⟩).2 =
      [⟨.timeoutH, "m", []⟩] := by
  constructor
  · decide
  · decide

def cfg4w : Config :=
  { baseConfig with
    ackTimeout := some 100
    onAckTimeoutError := some (fun _ _ => .ret (.bool true)) }

/-- Witness for the amended C4: the ack timer armed at call time captures
the original argument list, and the suppressing ack-timeout handler is
invoked with it and prevents the rejection. -/
theorem C4_handler_contract_witness :
    (callStart cfg4w initState "i" "m" [.str "x"] false).1.armed =
      [⟨0, .ackT, "i", "m", [.str "x"], .promise⟩] ∧
    (fireAckTimer cfg4w (callStart cfg4w initState "i" "m" [.str "x"]
        false).1 ⟨0, .ackT, "i", "m", [.str "x"], .promise⟩).2 =
      [⟨.ackTimeoutH, "m", [.str "x"]⟩] ∧
    alookup (fireAckTimer cfg4w (callStart cfg4w initState "i" "m"
        [.str "x"] false).1
        ⟨0, .ackT, "i", "m", [.str "x"], .promise⟩).1.cells "i" =
      some none :=
  by
  refine ⟨?_, ?_, ?_⟩
  · exact (C4_handler_contract cfg4w initState "i" "m" [.str "x"] false
      ⟨0, .ackT, "i", "m", [.str "x"], .promise⟩ fC1 .undef).1 rfl rfl rfl
  · exact ((C4_handler_contract cfg4w (callStart cfg4w initState "i" "m"
      [.str "x"] false).1 "i" "m" [.str "x"] false
      ⟨0, .ackT, "i", "m", [.str "x"], .promise⟩ fC1 .undef).2.2.2.2.1
      (fun _ _ => .ret (.bool true)) rfl rfl (by decide)).1
  · exact ((C4_handler_contract cfg4w (callStart cfg4w initState "i" "m"
      [.str "x"] false).1 "i" "m" [.str "x"] false
      ⟨0, .ackT, "i", "m", [.str "x"], .promise⟩ fC1 .undef).2.2.2.2.1
      (fun _ _ => .ret (.bool true)) rfl rfl (by decide)).2.1 rfl

/-! ### Claim C2 -/

theorem clearHandle_mem (st : State) (h : Option Nat) (t : Timer) :
    t ∈ (clearHandle st h).armed ↔ t ∈ st.armed ∧ h ≠ some t.h := by
  cases h with
  | none => simp [clearHandle]
  | some n =>
    simp only [clearHandle, List.mem_filter, bne_iff_ne, ne_eq,
      Option.some.injEq]
    constructor
    · rintro ⟨h1, h2⟩
      exact ⟨h1, fun hE => h2 hE.symm⟩
    · rintro ⟨h1, h2⟩
      exact ⟨h1, fun hE => h2 hE.symm⟩

theorem chainCause_stable (c d d2 : JsValue) :
    chainCause (chainCause c d) d2 = chainCause c d := by
  cases c <;> rfl

/-- The custom error object as it stands after the pending loop: its cause
is set by the first iteration when unset. -/
def closeCustomFinal (custom : Option JsValue)
    (entries : List (String × PromiseEntry)) : Option JsValue :=
  match custom, entries with
  | some c, (_, e0) :: _ => some (chainCause c (closedCallError e0.method))
  | x, _ => x

/-- The value each pending call is rejected with by `$close`: the default
closed error naming the call's own method, or the (first-iteration-chained)
custom error. -/
def closeErrVal (custom : Option JsValue)
    (entries : List (String × PromiseEntry)) (m : String) : JsValue :=
  match custom, entries with
  | none, _ => closedCallError m
  | some c, [] => c
  | some c, (_, e0) :: _ => chainCause c (closedCallError e0.method)

theorem closePendingLoop_stable_custom
    (l : List (String × PromiseEntry)) (c : JsValue)
    (hstab : ∀ d, chainCause c d = c) :
    ∀ st, (closePendingLoop (some c) l st).2 = some c := by
  induction l with
  | nil => intro st; rfl
  | cons p rest ih =>
    intro st
    obtain ⟨k, e⟩ := p
    simp only [closePendingLoop]
    rw [hstab]
    exact ih _

theorem closePendingLoop_custom (custom : Option JsValue)
    (l : List (String × PromiseEntry)) (st : State) :
    (closePendingLoop custom l st).2 = closeCustomFinal custom l := by
  cases custom with
  | none =>
    induction l generalizing st with
    | nil => rfl
    | cons p rest ih =>
      obtain ⟨k, e⟩ := p
      simp only [closePendingLoop]
      rw [ih]
      cases rest <;> rfl
  | some c =>
    cases l with
    | nil => rfl
    | cons p rest =>
      obtain ⟨k, e⟩ := p
      simp only [closePendingLoop, closeCustomFinal]
      exact closePendingLoop_stable_custom rest _
        (fun d => chainCause_stable c _ d) _

theorem closePendingLoop_streamMap (custom : Option JsValue)
    (l : List (String × PromiseEntry)) (st : State) :
    (closePendingLoop custom l st).1.streamMap = st.streamMap := by
  induction l generalizing st custom with
  | nil => rfl
  | cons p rest ih =>
    obtain ⟨k, e⟩ := p
    cases custom <;>
      simp [closePendingLoop, ih, doReject_streamMap, clearHandle_streamMap]

theorem closePendingLoop_closed (custom : Option JsValue)
    (l : List (String × PromiseEntry)) (st : State) :
    (closePendingLoop custom l st).1.closed = st.closed := by
  induction l generalizing st custom with
  | nil => rfl
  | cons p rest ih =>
    obtain ⟨k, e⟩ := p
    cases custom <;>
      simp [closePendingLoop, ih, doReject_closed, clearHandle_closed]

theorem closePendingLoop_cells_notin (custom : Option JsValue)
    (l : List (String × PromiseEntry)) (st : State) (id : String)
    (h : id ∉ l.map Prod.fst) :
    alookup (closePendingLoop custom l st).1.cells id =
      alookup st.cells id := by
  induction l generalizing st custom with
  | nil => rfl
  | cons p rest ih =>
    obtain ⟨k, e⟩ := p
    simp only [List.map_cons, List.mem_cons] at h
    push_neg at h
    have hch : ∀ (s : State) (ho : Option Nat),
        (clearHandle s ho).cells = s.cells := clearHandle_cells
    cases custom with
    | none =>
      simp only [closePendingLoop]
      rw [ih _ _ h.2, doReject_cells_ne _ _ _ _ _ h.1, hch, hch]
    | some c =>
      simp only [closePendingLoop]
      rw [ih _ _ h.2, doReject_cells_ne _ _ _ _ _ h.1, hch, hch]

theorem closePendingLoop_cells (custom : Option JsValue)
    (l : List (String × PromiseEntry)) (st : State)
    (hkeys : (l.map Prod.fst).Nodup)
    (pr : String × PromiseEntry) (hmem : pr ∈ l)
    (ht : pr.2.target = Target.promise)
    (hc : alookup st.cells pr.1 = some none) :
    alookup (closePendingLoop custom l st).1.cells pr.1 =
      some (some (Outcome.rejected (closeErrVal custom l pr.2.method))) := by
  obtain ⟨pid, pe⟩ := pr
  simp only at ht hc ⊢
  induction l generalizing st custom with
  | nil => simp at hmem
  | cons p rest ih =>
    obtain ⟨k, e⟩ := p
    simp only [List.map_cons, List.nodup_cons] at hkeys
    have hch : ∀ (s : State) (ho : Option Nat),
        (clearHandle s ho).cells = s.cells := clearHandle_cells
    rcases List.mem_cons.1 hmem with hEq | hRest
    · injection hEq with h1 h2
      subst h1
      subst h2
      cases custom with
      | none =>
        simp only [closePendingLoop]
        rw [closePendingLoop_cells_notin _ _ _ _ hkeys.1]
        rw [ht]
        simp only [doReject, settleCell]
        rw [alookup_aupdate_self _ _ _ none (by rw [hch, hch]; exact hc)]
        rfl
      | some c =>
        simp only [closePendingLoop]
        rw [closePendingLoop_cells_notin _ _ _ _ hkeys.1]
        rw [ht]
        simp only [doReject, settleCell]
        rw [alookup_aupdate_self _ _ _ none (by rw [hch, hch]; exact hc)]
        rfl
    · have hne : pid ≠ k := by
        intro hE
        exact hkeys.1 (hE ▸ (List.mem_map.2 ⟨(pid, pe), hRest, rfl⟩))
      have hc2 : ∀ (tg : Target) (w : JsValue),
          alookup (doReject (clearHandle (clearHandle st e.ackTimeoutId)
            e.responseTimeoutId) tg k w).cells pid = some none := by
        intro tg w
        rw [doReject_cells_ne _ _ _ _ _ hne, hch, hch]
        exact hc
      cases custom with
      | none =>
        simp only [closePendingLoop]
        rw [ih _ _ hkeys.2 hRest (hc2 _ _)]
        cases hrest : rest with
        | nil => simp [hrest] at hRest
        | cons q qs => rfl
      | some c =>
        simp only [closePendingLoop]
        rw [ih _ _ hkeys.2 hRest (hc2 _ _)]
        cases hrest : rest with
        | nil => simp [hrest] at hRest
        | cons q qs =>
          simp only [closeErrVal]
          rw [chainCause_stable]

theorem closePendingLoop_streams_shape
    (l : List (String × PromiseEntry)) (id : String) :
    ∀ (custom : Option JsValue) (st : State),
    alookup (closePendingLoop custom l st).1.streams id =
        alookup st.streams id ∨
    ∃ w, alookup (closePendingLoop custom l st).1.streams id =
        (alookup st.streams id).map (setErr w) := by
  induction l with
  | nil => exact fun custom st => Or.inl rfl
  | cons p rest ih =>
    intro custom st
    obtain ⟨k, e⟩ := p
    have hstep : ∀ (s : State) (tg : Target) (w : JsValue),
        alookup (doReject s tg k w).streams id = alookup s.streams id ∨
        ∃ w2, alookup (doReject s tg k w).streams id =
          (alookup s.streams id).map (setErr w2) := by
      intro s tg w
      cases tg with
      | promise => exact Or.inl rfl
      | stream =>
        by_cases hk : id = k
        · subst hk
          exact Or.inr ⟨w, by simp [doReject, alookup_aupdate]⟩
        · exact Or.inl (by simp [doReject, alookup_aupdate_ne _ _ _ _ hk])
    have hcl : ∀ (s : State) (ho : Option Nat),
        (clearHandle s ho).streams = s.streams := clearHandle_streams
    cases custom with
    | none =>
      simp only [closePendingLoop]
      rcases ih none (doReject (clearHandle (clearHandle st e.ackTimeoutId)
          e.responseTimeoutId) e.target k (closedCallError e.method))
        with h1 | ⟨w2, h2⟩
      · rcases hstep (clearHandle (clearHandle st e.ackTimeoutId)
            e.responseTimeoutId) e.target (closedCallError e.method)
          with g1 | ⟨w3, g3⟩
        · exact Or.inl (by rw [h1, g1, hcl, hcl])
        · exact Or.inr ⟨w3, by rw [h1, g3, hcl, hcl]⟩
      · rcases hstep (clearHandle (clearHandle st e.ackTimeoutId)
            e.responseTimeoutId) e.target (closedCallError e.method)
          with g1 | ⟨w3, g3⟩
        · exact Or.inr ⟨w2, by rw [h2, g1, hcl, hcl]⟩
        · refine Or.inr ⟨w2, ?_⟩
          rw [h2, g3, hcl, hcl]
          cases alookup st.streams id <;> rfl
    | some c =>
      simp only [closePendingLoop]
      rcases ih (some (chainCause c (closedCallError e.method)))
          (doReject (clearHandle (clearHandle st e.ackTimeoutId)
            e.responseTimeoutId) e.target k (chainCause c
              (closedCallError e.method)))
        with h1 | ⟨w2, h2⟩
      · rcases hstep (clearHandle (clearHandle st e.ackTimeoutId)
            e.responseTimeoutId) e.target (chainCause c
              (closedCallError e.method))
          with g1 | ⟨w3, g3⟩
        · exact Or.inl (by rw [h1, g1, hcl, hcl])
        · exact Or.inr ⟨w3, by rw [h1, g3, hcl, hcl]⟩
      · rcases hstep (clearHandle (clearHandle st e.ackTimeoutId)
            e.responseTimeoutId) e.target (chainCause c
              (closedCallError e.method))
          with g1 | ⟨w3, g3⟩
        · exact Or.inr ⟨w2, by rw [h2, g1, hcl, hcl]⟩
        · refine Or.inr ⟨w2, ?_⟩
          rw [h2, g3, hcl, hcl]
          cases alookup st.streams id <;> rfl

theorem closePendingLoop_armed (custom : Option JsValue)
    (l : List (String × PromiseEntry)) (st : State) (t : Timer)
    (hmem : t ∈ (closePendingLoop custom l st).1.armed) :
    t ∈ st.armed ∧ ∀ pr ∈ l, pr.2.ackTimeoutId ≠ some t.h ∧
      pr.2.responseTimeoutId ≠ some t.h := by
  induction l generalizing st custom with
  | nil => exact ⟨hmem, by simp⟩
  | cons p rest ih =>
    obtain ⟨k, e⟩ := p
    have harm : ∀ (s : State) (tg : Target) (k2 : String) (w : JsValue),
        (doReject s tg k2 w).armed = s.armed := doReject_armed
    cases custom with
    | none =>
      simp only [closePendingLoop] at hmem
      obtain ⟨h1, h2⟩ := ih _ _ hmem
      rw [harm] at h1
      rw [clearHandle_mem] at h1
      obtain ⟨h3, h4⟩ := h1
      rw [clearHandle_mem] at h3
      refine ⟨h3.1, ?_⟩
      intro pr hpr
      rcases List.mem_cons.1 hpr with hEq | hRest
      · subst hEq
        exact ⟨h3.2, h4⟩
      · exact h2 pr hRest
    | some c =>
      simp only [closePendingLoop] at hmem
      obtain ⟨h1, h2⟩ := ih _ _ hmem
      rw [harm] at h1
      rw [clearHandle_mem] at h1
      obtain ⟨h3, h4⟩ := h1
      rw [clearHandle_mem] at h3
      refine ⟨h3.1, ?_⟩
      intro pr hpr
      rcases List.mem_cons.1 hpr with hEq | hRest
      · subst hEq
        exact ⟨h3.2, h4⟩
      · exact h2 pr hRest

theorem closeStreamsLoop_cells (v : JsValue) (ids : List String)
    (st : State) : (closeStreamsLoop v ids st).cells = st.cells := by
  induction ids generalizing st with
  | nil => rfl
  | cons id rest ih =>
    simp only [closeStreamsLoop]
    rw [ih, clearHandle_cells]

theorem closeStreamsLoop_closed (v : JsValue) (ids : List String)
    (st : State) : (closeStreamsLoop v ids st).closed = st.closed := by
  induction ids generalizing st with
  | nil => rfl
  | cons id rest ih =>
    simp only [closeStreamsLoop]
    rw [ih, clearHandle_closed]

theorem closeStreamsLoop_promiseMap (v : JsValue) (ids : List String)
    (st : State) : (closeStreamsLoop v ids st).promiseMap = st.promiseMap := by
  induction ids generalizing st with
  | nil => rfl
  | cons id rest ih =>
    simp only [closeStreamsLoop]
    rw [ih, clearHandle_promiseMap]

theorem closeStreamsLoop_streamMap (v : JsValue) (ids : List String)
    (st : State) : (closeStreamsLoop v ids st).streamMap = st.streamMap := by
  induction ids generalizing st with
  | nil => rfl
  | cons id rest ih =>
    simp only [closeStreamsLoop]
    rw [ih, clearHandle_streamMap]

theorem closeStreamsLoop_streams_notin (v : JsValue) (ids : List String)
    (st : State) (id : String) (h : id ∉ ids) :
    alookup (closeStreamsLoop v ids st).streams id =
      alookup st.streams id := by
  induction ids generalizing st with
  | nil => rfl
  | cons id0 rest ih =>
    simp only [List.mem_cons] at h
    push_neg at h
    simp only [closeStreamsLoop]
    rw [ih _ h.2, clearHandle_streams, alookup_aupdate_ne _ _ _ _ h.1]

theorem closeStreamsLoop_streams_set (v : JsValue) (ids : List String)
    (st : State) (id : String) (hnd : ids.Nodup) (hmem : id ∈ ids)
    (hsome : (alookup st.streams id).isSome = true) :
    ∃ ss', alookup (closeStreamsLoop v ids st).streams id = some ss' ∧
      ss'.error = some v := by
  induction ids generalizing st with
  | nil => simp at hmem
  | cons id0 rest ih =>
    simp only [List.nodup_cons] at hnd
    rcases List.mem_cons.1 hmem with hEq | hRest
    · subst hEq
      simp only [closeStreamsLoop]
      rw [closeStreamsLoop_streams_notin _ _ _ _ hnd.1]
      rw [clearHandle_streams, alookup_aupdate]
      rcases hopt : alookup st.streams id with _ | ss0
      · rw [hopt] at hsome
        simp at hsome
      · exact ⟨setErr v ss0, rfl, rfl⟩
    · simp only [closeStreamsLoop]
      refine ih _ hnd.2 hRest ?_
      rw [clearHandle_streams]
      by_cases hk : id = id0
      · rw [hk, alookup_aupdate]
        rw [hk] at hsome
        rcases alookup st.streams id0 <;> simp_all
      · rw [alookup_aupdate_ne _ _ _ _ hk]
        exact hsome

theorem closeStreamsLoop_armed (v : JsValue) (ids : List String)
    (t : Timer) :
    ∀ st : State, t ∈ (closeStreamsLoop v ids st).armed →
    t ∈ st.armed ∧ ∀ id ∈ ids, ∀ ss, alookup st.streams id = some ss →
      ss.timeoutId ≠ some t.h := by
  induction ids with
  | nil =>
    intro st hmem
    exact ⟨hmem, by simp⟩
  | cons id0 rest ih =>
    intro st hmem
    simp only [closeStreamsLoop] at hmem
    obtain ⟨h1, h2⟩ := ih _ hmem
    have h1b : t ∈ (clearHandle st (streamTid st id0)).armed := h1
    rw [clearHandle_mem] at h1b
    refine ⟨h1b.1, ?_⟩
    intro id hid ss hss
    rcases List.mem_cons.1 hid with hEq | hRest
    · subst hEq
      intro hE
      apply h1b.2
      unfold streamTid
      rw [hss]
      exact hE
    · by_cases hk : id = id0
      · subst hk
        have hl : alookup (aupdate (setErr v)
            (clearHandle st (streamTid st id)).streams id) id =
            some (setErr v ss) := by
          rw [alookup_aupdate, clearHandle_streams, hss]
          rfl
        exact h2 id hRest (setErr v ss) hl
      · have hl : alookup (aupdate (setErr v)
            (clearHandle st (streamTid st id0)).streams id0) id = some ss := by
          rw [alookup_aupdate_ne _ _ _ _ hk, clearHandle_streams]
          exact hss
        exact h2 id hRest ss hl

/-- Claim C2 (amended): after `$close(cause?)`: the endpoint is closed and
both tables are empty; every subsequent call fails synchronously with the
closed error; every promise-backed call pending at close time is rejected
with the supplied cause (whose `cause` slot is chained with a default
closed error when unset) or with the default closed error naming its
method; every stream registered at close time observes the cause or the
default closed-stream error; and every timer referenced by a record present
in either table at close time is cleared — but timers orphaned before the
close (records removed without clearing, e.g. by `$rejectPendingCalls`) may
remain armed, so it is not true that no timer remains armed. -/
theorem closeRpc_closed (st : State) (custom : Option JsValue) :
    (closeRpc st custom).closed = true := by
  show (closeStreamsLoop (closeStreamVal (closePendingLoop custom
      st.promiseMap { st with closed := true }).2)
      (closePendingLoop custom st.promiseMap
        { st with closed := true }).1.streamMap
      { (closePendingLoop custom st.promiseMap
          { st with closed := true }).1 with promiseMap := [] }).closed = true
  rw [closeStreamsLoop_closed]
  show (closePendingLoop custom st.promiseMap
      { st with closed := true }).1.closed = true
  rw [closePendingLoop_closed]

theorem closeRpc_promiseMap (st : State) (custom : Option JsValue) :
    (closeRpc st custom).promiseMap = [] := by
  show (closeStreamsLoop (closeStreamVal (closePendingLoop custom
      st.promiseMap { st with closed := true }).2)
      (closePendingLoop custom st.promiseMap
        { st with closed := true }).1.streamMap
      { (closePendingLoop custom st.promiseMap
          { st with closed := true }).1 with
        promiseMap := [] }).promiseMap = []
  rw [closeStreamsLoop_promiseMap]

theorem closeRpc_cells (st : State) (custom : Option JsValue) :
    (closeRpc st custom).cells =
      (closePendingLoop custom st.promiseMap
        { st with closed := true }).1.cells := by
  show (closeStreamsLoop (closeStreamVal (closePendingLoop custom
      st.promiseMap { st with closed := true }).2)
      (closePendingLoop custom st.promiseMap
        { st with closed := true }).1.streamMap
      { (closePendingLoop custom st.promiseMap
          { st with closed := true }).1 with promiseMap := [] }).cells = _
  rw [closeStreamsLoop_cells]

theorem C2_close_effects (cfg : Config) (st : State)
    (custom : Option JsValue)
    (hpk : (st.promiseMap.map Prod.fst).Nodup)
    (hsk : st.streamMap.Nodup) :
    (closeRpc st custom).closed = true ∧
    (closeRpc st custom).promiseMap = [] ∧
    (closeRpc st custom).streamMap = [] ∧
    (∀ id m a o, callStart cfg (closeRpc st custom) id m a o =
      ((closeRpc st custom), [], some (closedCallError m))) ∧
    (∀ pr ∈ st.promiseMap, pr.2.target = Target.promise →
      alookup st.cells pr.1 = some none →
      alookup (closeRpc st custom).cells pr.1 =
        some (some (Outcome.rejected
          (closeErrVal custom st.promiseMap pr.2.method)))) ∧
    (∀ id ∈ st.streamMap, (alookup st.streams id).isSome = true →
      ∃ ss', alookup (closeRpc st custom).streams id = some ss' ∧
        ss'.error = some (closeStreamVal
          (closeCustomFinal custom st.promiseMap))) ∧
    (∀ t ∈ (closeRpc st custom).armed, t ∈ st.armed ∧
      (∀ pr ∈ st.promiseMap, pr.2.ackTimeoutId ≠ some t.h ∧
        pr.2.responseTimeoutId ≠ some t.h) ∧
      (∀ id ∈ st.streamMap, ∀ ss, alookup st.streams id = some ss →
        ss.timeoutId ≠ some t.h)) := by
  have hcustom := closePendingLoop_custom custom st.promiseMap
    { st with closed := true }
  refine ⟨closeRpc_closed st custom, closeRpc_promiseMap st custom, rfl,
    ?_, ?_, ?_, ?_⟩
  · intro id m a o
    simp [callStart, closeRpc_closed st custom]
  · intro pr hmem ht hc
    rw [closeRpc_cells]
    exact closePendingLoop_cells custom st.promiseMap _ hpk pr hmem ht hc
  · intro id hmem hsome
    have hsome2 : (alookup (closePendingLoop custom st.promiseMap
        { st with closed := true }).1.streams id).isSome = true := by
      rcases closePendingLoop_streams_shape st.promiseMap id custom
          { st with closed := true } with h1 | ⟨w, h2⟩
      · rw [h1]; exact hsome
      · rw [h2]
        rcases hopt : alookup st.streams id with _ | ss0
        · rw [hopt] at hsome
          simp at hsome
        · rfl
    have hmem2 : id ∈ (closePendingLoop custom st.promiseMap
        { st with closed := true }).1.streamMap := by
      rw [closePendingLoop_streamMap]
      exact hmem
    have hnd2 : ((closePendingLoop custom st.promiseMap
        { st with closed := true }).1.streamMap).Nodup := by
      rw [closePendingLoop_streamMap]
      exact hsk
    obtain ⟨ss', hss', herr⟩ := closeStreamsLoop_streams_set
      (closeStreamVal (closePendingLoop custom st.promiseMap
        { st with closed := true }).2)
      ((closePendingLoop custom st.promiseMap
        { st with closed := true }).1.streamMap)
      { (closePendingLoop custom st.promiseMap
          { st with closed := true }).1 with promiseMap := [] }
      id hnd2 hmem2 hsome2
    refine ⟨ss', hss', ?_⟩
    rw [herr, hcustom]
  · intro t hmem
    have hmem2 : t ∈ (closeStreamsLoop (closeStreamVal (closePendingLoop
        custom st.promiseMap { st with closed := true }).2)
        (closePendingLoop custom st.promiseMap
          { st with closed := true }).1.streamMap
        { (closePendingLoop custom st.promiseMap
            { st with closed := true }).1 with
          promiseMap := [] }).armed := hmem
    obtain ⟨h1, h2⟩ := closeStreamsLoop_armed _ _ t _ hmem2
    have h1b : t ∈ (closePendingLoop custom st.promiseMap
        { st with closed := true }).1.armed := h1
    obtain ⟨h3, h4⟩ := closePendingLoop_armed custom st.promiseMap
      { st with closed := true } t h1b
    refine ⟨h3, h4, ?_⟩
    intro id hid ss hss
    have hid2 : id ∈ (closePendingLoop custom st.promiseMap
        { st with closed := true }).1.streamMap := by
      rw [closePendingLoop_streamMap]
      exact hid
    rcases closePendingLoop_streams_shape st.promiseMap id custom
        { st with closed := true } with hs1 | ⟨w, hs2⟩
    · exact h2 id hid2 ss (by rw [hs1]; exact hss)
    · have hs3 : alookup (closePendingLoop custom st.promiseMap
          { st with closed := true }).1.streams id = some (setErr w ss) := by
        rw [hs2, hss]
        rfl
      exact h2 id hid2 (setErr w ss) hs3

def cfg2 : Config := { baseConfig with ackTimeout := some 100 }

/-- Counterexample to C2 as stated: a call's ack timer is orphaned by
`$rejectPendingCalls` (which clears the table without clearing timers);
the subsequent `$close` iterates the now-empty tables and the armed ack
timer survives the close, contradicting "no ack, response, or stream timer
remains armed". -/
theorem C2_timer_survives_close_cex :
    (closeRpc (rejectPendingCallsStep none
        (callStart cfg2 initState "i" "m" [] false).1) none).armed =
      [⟨0, .ackT, "i", "m", [], .promise⟩] := by
  decide

def c2WState : State :=
  { closed := false,
    promiseMap := [("i", ⟨"m", .promise, some 0, none, false⟩)],
    streamMap := ["s"],
    cells := [("i", none)],
    streams := [("s", ⟨[], false, none, some 1⟩)],
    armed := [⟨0, .ackT, "i", "m", [], .promise⟩,
              ⟨1, .streamT, "s", "n", [], .stream⟩],
    nextH := 2 }

/-- Witness for the amended C2 at a concrete state with one pending call,
one stream and their two armed timers: everything is cleared, the call is
rejected with the chained custom error, the stream observes it, and no
armed timer survives because both were referenced by the tables. -/
theorem C2_close_effects_witness :
    (closeRpc c2WState (some (.err "boom"))).closed = true ∧
    (closeRpc c2WState (some (.err "boom"))).promiseMap = [] ∧
    alookup (closeRpc c2WState (some (.err "boom"))).cells "i" =
      some (some (Outcome.rejected
        (.errC "boom" (closedCallError "m")))) ∧
    (∀ t ∈ (closeRpc c2WState (some (.err "boom"))).armed, t ∈ c2WState.armed ∧
      (∀ pr ∈ c2WState.promiseMap, pr.2.ackTimeoutId ≠ some t.h ∧
        pr.2.responseTimeoutId ≠ some t.h) ∧
      (∀ id ∈ c2WState.streamMap, ∀ ss, alookup c2WState.streams id = some ss →
        ss.timeoutId ≠ some t.h)) :=
  ⟨(C2_close_effects baseConfig c2WState (some (.err "boom")) (by decide)
      (by decide)).1,
   (C2_close_effects baseConfig c2WState (some (.err "boom")) (by decide)
      (by decide)).2.1,
   (C2_close_effects baseConfig c2WState (some (.err "boom")) (by decide)
      (by decide)).2.2.2.2.1 ("i", ⟨"m", .promise, some 0, none, false⟩)
      (by decide) rfl rfl,
   (C2_close_effects baseConfig c2WState (some (.err "boom")) (by decide)
      (by decide)).2.2.2.2.2.2⟩

/-! ### Claim C3 -/

theorem aerase_keys_sublist {α : Type} (l : List (String × α)) (k : String) :
    ((aerase l k).map Prod.fst).Sublist (l.map Prod.fst) := by
  induction l with
  | nil => simp [aerase]
  | cons p rest ih =>
    obtain ⟨k', w⟩ := p
    by_cases h : k' = k
    · simp only [aerase, if_pos h, List.map_cons]
      exact (List.sublist_cons_self k' _).trans
        (List.Sublist.cons₂ k' (List.Sublist.refl _))
    · simp only [aerase, if_neg h, List.map_cons]
      exact List.Sublist.cons₂ k' ih

theorem alookup_aerase_sub {α : Type} (l : List (String × α)) (k id : String)
    (v : α) (hnd : (l.map Prod.fst).Nodup)
    (h : alookup (aerase l k) id = some v) : alookup l id = some v := by
  by_cases hk : id = k
  · subst hk
    rw [alookup_aerase_self l id hnd] at h
    cases h
  · rw [alookup_aerase_ne l k id hk] at h
    exact h

theorem aupdate_keys {α : Type} (f : α → α) (l : List (String × α))
    (k : String) : (aupdate f l k).map Prod.fst = l.map Prod.fst := by
  induction l with
  | nil => rfl
  | cons p rest ih =>
    obtain ⟨k', w⟩ := p
    by_cases h : k' = k <;> simp [aupdate, h, ih]

theorem aset_keys_absent {α : Type} (l : List (String × α)) (k : String)
    (v : α) (h : alookup l k = none) :
    (aset l k v).map Prod.fst = l.map Prod.fst ++ [k] := by
  induction l with
  | nil => rfl
  | cons p rest ih =>
    obtain ⟨k', w⟩ := p
    simp only [alookup] at h
    by_cases hk : k' = k
    · simp [hk] at h
    · simp only [aset, if_neg hk, List.map_cons, List.cons_append]
      rw [ih (by simpa [hk] using h)]

theorem alookup_aupdate_isSome {α : Type} (f : α → α)
    (l : List (String × α)) (k id : String)
    (h : (alookup l id).isSome = true) :
    (alookup (aupdate f l k) id).isSome = true := by
  by_cases hk : id = k
  · subst hk
    rw [alookup_aupdate]
    rcases hopt : alookup l id with _ | w
    · rw [hopt] at h
      simp at h
    · rfl
  · rw [alookup_aupdate_ne _ _ _ _ hk]
    exact h

theorem alookup_aset_isSome {α : Type} (l : List (String × α))
    (k id : String) (v : α) (h : (alookup l id).isSome = true) :
    (alookup (aset l k v) id).isSome = true := by
  by_cases hk : id = k
  · subst hk
    rw [alookup_aset_self]
    rfl
  · rw [alookup_aset_ne _ _ _ _ hk]
    exact h

/-- The timer-discipline invariant over endpoint states:

* `known` / `pmKnown`: every armed timer's id and every pending record's id
  belongs to a call or stream this endpoint has started;
* `keysNd`: the correlation table has no duplicate ids;
* `ackLink`: an armed ack timer for an id with a live record is the very
  timer the record's `ackTimeoutId` holds;
* `noBoth`: an ack timer and a response timer are never both armed for the
  same id;
* `ackFirst`: with an ack timeout configured, a record that has not seen
  its Ack has no armed response timer. -/
structure Inv (cfg : Config) (s : State) : Prop where
  known : ∀ t ∈ s.armed,
    (alookup s.cells t.id).isSome = true ∨
    (alookup s.streams t.id).isSome = true
  pmKnown : ∀ id en, alookup s.promiseMap id = some en →
    (alookup s.cells id).isSome = true ∨
    (alookup s.streams id).isSome = true
  keysNd : (s.promiseMap.map Prod.fst).Nodup
  ackLink : ∀ t ∈ s.armed, t.kind = TKind.ackT →
    ∀ en, alookup s.promiseMap t.id = some en → en.ackTimeoutId = some t.h
  noBoth : ∀ t ∈ s.armed, ∀ t2 ∈ s.armed, t.id = t2.id →
    ¬(t.kind = TKind.ackT ∧ t2.kind = TKind.respT)
  ackFirst : ackArmB cfg = true → ∀ id en,
    alookup s.promiseMap id = some en → en.ackReceived = false →
    ∀ t ∈ s.armed, t.id = id → t.kind ≠ TKind.respT

theorem Inv_init (cfg : Config) : Inv cfg initState := by
  refine ⟨?_, ?_, ?_, ?_, ?_, ?_⟩ <;> simp [initState, alookup]

/-- Preservation for every step that only removes timers, removes (or keeps)
correlation records unchanged, and preserves the existence of promise cells
and stream closures. -/
theorem Inv_shrink (cfg : Config) (s s2 : State)
    (harm : ∀ t ∈ s2.armed, t ∈ s.armed)
    (hpm : ∀ id en, alookup s2.promiseMap id = some en →
      alookup s.promiseMap id = some en)
    (hkeys : (s2.promiseMap.map Prod.fst).Nodup)
    (hcells : ∀ id, (alookup s.cells id).isSome = true →
      (alookup s2.cells id).isSome = true)
    (hstreams : ∀ id, (alookup s.streams id).isSome = true →
      (alookup s2.streams id).isSome = true)
    (hinv : Inv cfg s) : Inv cfg s2 := by
  refine ⟨?_, ?_, hkeys, ?_, ?_, ?_⟩
  · intro t ht
    rcases hinv.known t (harm t ht) with h | h
    · exact Or.inl (hcells _ h)
    · exact Or.inr (hstreams _ h)
  · intro id en hen
    rcases hinv.pmKnown id en (hpm id en hen) with h | h
    · exact Or.inl (hcells _ h)
    · exact Or.inr (hstreams _ h)
  · intro t ht hk en hen
    exact hinv.ackLink t (harm t ht) hk en (hpm _ _ hen)
  · intro t ht t2 ht2 hid
    exact hinv.noBoth t (harm t ht) t2 (harm t2 ht2) hid
  · intro hA id en hen hrec t ht hid
    exact hinv.ackFirst hA id en (hpm _ _ hen) hrec t (harm t ht) hid

theorem Inv_of_eq_parts (cfg : Config) (s s2 : State)
    (ha : s2.armed = s.armed) (hp : s2.promiseMap = s.promiseMap)
    (hc : s2.cells = s.cells) (hstr : s2.streams = s.streams)
    (hinv : Inv cfg s) : Inv cfg s2 := by
  apply Inv_shrink cfg s
  · intro t ht
    rw [ha] at ht
    exact ht
  · intro id en hen
    rw [hp] at hen
    exact hen
  · rw [hp]
    exact hinv.keysNd
  · intro id h
    rw [hc]
    exact h
  · intro id h
    rw [hstr]
    exact h
  · exact hinv

theorem Inv_clearHandle (cfg : Config) (s : State) (h : Option Nat)
    (hinv : Inv cfg s) : Inv cfg (clearHandle s h) := by
  apply Inv_shrink cfg s
  · intro t ht
    exact ((clearHandle_mem s h t).1 ht).1
  · intro id en hen
    rw [clearHandle_promiseMap] at hen
    exact hen
  · rw [clearHandle_promiseMap]
    exact hinv.keysNd
  · intro id hc
    rw [clearHandle_cells]
    exact hc
  · intro id hc
    rw [clearHandle_streams]
    exact hc
  · exact hinv

theorem Inv_armErase (cfg : Config) (s : State) (t : Timer)
    (hinv : Inv cfg s) : Inv cfg { s with armed := s.armed.erase t } := by
  apply Inv_shrink cfg s
  · intro t2 ht2
    exact List.mem_of_mem_erase ht2
  · intro id en hen
    exact hen
  · exact hinv.keysNd
  · intro id h
    exact h
  · intro id h
    exact h
  · exact hinv

theorem Inv_eraseEntry (cfg : Config) (s : State) (id : String)
    (hinv : Inv cfg s) :
    Inv cfg { s with promiseMap := aerase s.promiseMap id } := by
  apply Inv_shrink cfg s
  · intro t2 ht2
    exact ht2
  · intro id2 en hen
    exact alookup_aerase_sub _ _ _ _ hinv.keysNd hen
  · exact List.Nodup.sublist (aerase_keys_sublist s.promiseMap id)
      hinv.keysNd
  · intro id2 h
    exact h
  · intro id2 h
    exact h
  · exact hinv

theorem Inv_cellsUpd (cfg : Config) (s : State)
    (f : Option Outcome → Option Outcome) (id : String)
    (hinv : Inv cfg s) :
    Inv cfg { s with cells := aupdate f s.cells id } := by
  apply Inv_shrink cfg s
  · intro t2 ht2
    exact ht2
  · intro id2 en hen
    exact hen
  · exact hinv.keysNd
  · intro id2 h
    exact alookup_aupdate_isSome _ _ _ _ h
  · intro id2 h
    exact h
  · exact hinv

theorem Inv_streamsUpd (cfg : Config) (s : State)
    (f : StreamState → StreamState) (id : String)
    (hinv : Inv cfg s) :
    Inv cfg { s with streams := aupdate f s.streams id } := by
  apply Inv_shrink cfg s
  · intro t2 ht2
    exact ht2
  · intro id2 en hen
    exact hen
  · exact hinv.keysNd
  · intro id2 h
    exact h
  · intro id2 h
    exact alookup_aupdate_isSome _ _ _ _ h
  · exact hinv

theorem Inv_doReject (cfg : Config) (s : State) (tgt : Target) (id : String)
    (e : JsValue) (hinv : Inv cfg s) : Inv cfg (doReject s tgt id e) := by
  cases tgt
  · exact Inv_cellsUpd cfg s _ id hinv
  · exact Inv_streamsUpd cfg s _ id hinv

theorem Inv_doResolve (cfg : Config) (s : State) (tgt : Target)
    (id : String) (v : JsValue) (hinv : Inv cfg s) :
    Inv cfg (doResolve s tgt id v) := by
  cases tgt
  · exact Inv_cellsUpd cfg s _ id hinv
  · exact hinv

theorem ackStep_armed2 (cfg : Config) (s : State) (id : String)
    (en : PromiseEntry) (hE : alookup s.promiseMap id = some en)
    (hA : en.ackReceived = false) (hT : ¬ cfg.timeout < 0) :
    (onMessage cfg s (.ack id)).st.armed =
      (clearHandle s en.ackTimeoutId).armed ++
        [⟨(clearHandle s en.ackTimeoutId).nextH, .respT, id, en.method, [],
          en.target⟩] := by
  simp [onMessage, hE, hA, startResponseTimeout, hT, armTimer]

theorem ackStep_armed_negT (cfg : Config) (s : State) (id : String)
    (en : PromiseEntry) (hE : alookup s.promiseMap id = some en)
    (hA : en.ackReceived = false) (hT : cfg.timeout < 0) :
    (onMessage cfg s (.ack id)).st.armed =
      (clearHandle s en.ackTimeoutId).armed := by
  simp [onMessage, hE, hA, startResponseTimeout, hT]

theorem ackStep_promiseMap (cfg : Config) (s : State) (id : String)
    (en : PromiseEntry) (hE : alookup s.promiseMap id = some en)
    (hA : en.ackReceived = false) :
    ∃ hr, (onMessage cfg s (.ack id)).st.promiseMap =
      aupdate (markAcked hr) s.promiseMap id := by
  by_cases hT : cfg.timeout < 0
  · exact ⟨none, by simp [onMessage, hE, hA, startResponseTimeout, hT,
      clearHandle_promiseMap]⟩
  · exact ⟨some (clearHandle s en.ackTimeoutId).nextH,
      by simp [onMessage, hE, hA, startResponseTimeout, hT, armTimer,
        clearHandle_promiseMap]⟩

theorem ackStep_cells (cfg : Config) (s : State) (id : String) :
    (onMessage cfg s (.ack id)).st.cells = s.cells := by
  rcases hE : alookup s.promiseMap id with _ | en
  · simp [onMessage, hE]
  · cases hA : en.ackReceived
    · by_cases hT : cfg.timeout < 0 <;>
        simp [onMessage, hE, hA, startResponseTimeout, hT, armTimer,
          clearHandle_cells]
    · simp [onMessage, hE, hA]

theorem ackStep_streams (cfg : Config) (s : State) (id : String) :
    (onMessage cfg s (.ack id)).st.streams = s.streams := by
  rcases hE : alookup s.promiseMap id with _ | en
  · simp [onMessage, hE]
  · cases hA : en.ackReceived
    · by_cases hT : cfg.timeout < 0 <;>
        simp [onMessage, hE, hA, startResponseTimeout, hT, armTimer,
          clearHandle_streams]
    · simp [onMessage, hE, hA]

theorem Inv_ackCase (cfg : Config) (s : State) (id : String)
    (en : PromiseEntry) (hE : alookup s.promiseMap id = some en)
    (hA : en.ackReceived = false) (hinv : Inv cfg s) :
    Inv cfg (onMessage cfg s (.ack id)).st := by
  obtain ⟨hr, hpm⟩ := ackStep_promiseMap cfg s id en hE hA
  have hcells := ackStep_cells cfg s id
  have hstr := ackStep_streams cfg s id
  have harm : ∀ t ∈ (onMessage cfg s (.ack id)).st.armed,
      (t ∈ s.armed ∧ en.ackTimeoutId ≠ some t.h) ∨
      t = ⟨(clearHandle s en.ackTimeoutId).nextH, .respT, id, en.method, [],
        en.target⟩ := by
    by_cases hT : cfg.timeout < 0
    · rw [ackStep_armed_negT cfg s id en hE hA hT]
      intro t ht
      exact Or.inl ((clearHandle_mem s _ t).1 ht)
    · rw [ackStep_armed2 cfg s id en hE hA hT]
      intro t ht
      rcases List.mem_append.1 ht with h | h
      · exact Or.inl ((clearHandle_mem s _ t).1 h)
      · exact Or.inr (by simpa using h)
  have hnoAck : ∀ t, t ∈ s.armed → en.ackTimeoutId ≠ some t.h →
      t.kind = TKind.ackT → t.id = id → False := by
    intro t hts hne hk hid
    exact hne (hinv.ackLink t hts hk en (hid ▸ hE))
  refine ⟨?_, ?_, ?_, ?_, ?_, ?_⟩
  · intro t ht
    rw [hcells, hstr]
    rcases harm t ht with ⟨hts, _⟩ | hnew
    · exact hinv.known t hts
    · rw [hnew]
      exact hinv.pmKnown id en hE
  · intro id2 en2 hen2
    rw [hpm] at hen2
    rw [hcells, hstr]
    by_cases hid2 : id2 = id
    · subst hid2
      exact hinv.pmKnown id2 en hE
    · rw [alookup_aupdate_ne _ _ _ _ hid2] at hen2
      exact hinv.pmKnown id2 en2 hen2
  · rw [hpm, aupdate_keys]
    exact hinv.keysNd
  · intro t ht hk en2 hen2
    rw [hpm] at hen2
    rcases harm t ht with ⟨hts, hne⟩ | hnew
    · by_cases hid : t.id = id
      · exact (hnoAck t hts hne hk hid).elim
      · rw [alookup_aupdate_ne _ _ _ _ hid] at hen2
        exact hinv.ackLink t hts hk en2 hen2
    · rw [hnew] at hk
      cases hk
  · intro t ht t2 ht2 hid
    rintro ⟨hk1, hk2⟩
    rcases harm t ht with ⟨hts, hne⟩ | hnew
    · rcases harm t2 ht2 with ⟨hts2, _⟩ | hnew2
      · exact hinv.noBoth t hts t2 hts2 hid ⟨hk1, hk2⟩
      · apply hnoAck t hts hne hk1
        rw [hid, hnew2]
    · rw [hnew] at hk1
      cases hk1
  · intro hAB id2 en2 hen2 hrec t ht hid
    rw [hpm] at hen2
    by_cases hid2 : id2 = id
    · subst hid2
      rw [alookup_aupdate, hE] at hen2
      have hen2' : markAcked hr en = en2 := by
        simpa using hen2
      rw [← hen2'] at hrec
      cases hrec
    · rw [alookup_aupdate_ne _ _ _ _ hid2] at hen2
      rcases harm t ht with ⟨hts, _⟩ | hnew
      · exact hinv.ackFirst hAB id2 en2 hen2 hrec t hts hid
      · intro _
        apply hid2
        rw [← hid, hnew]

/-- Stream-side cleanup of the StreamEnd / StreamError branches of
`onMessage` (they differ only in the closure mutation `f`). -/
def streamTerm1 (s : State) (id : String)
    (f : StreamState → StreamState) : State :=
  if id ∈ s.streamMap then
    let st' := clearHandle s (streamTid s id)
    { st' with streams := aupdate f st'.streams id,
               streamMap := st'.streamMap.erase id }
  else s

/-- Promise-side cleanup of the StreamEnd / StreamError branches of
`onMessage` (an ack-pending stream still owns a correlation record). -/
def streamTerm2 (s : State) (id : String) : State :=
  match alookup s.promiseMap id with
  | some entry =>
    let st' := clearHandle s entry.responseTimeoutId
    { st' with promiseMap := aerase st'.promiseMap id }
  | none => s

/-- The common shape of the StreamEnd and StreamError branches of
`onMessage`. -/
def streamTermState (s : State) (id : String)
    (f : StreamState → StreamState) : State :=
  streamTerm2 (streamTerm1 s id f) id

theorem onMessage_streamEnd_eq (cfg : Config) (s : State) (id : String) :
    (onMessage cfg s (.streamEnd id)).st = streamTermState s id setDone :=
  rfl

theorem onMessage_streamError_eq (cfg : Config) (s : State) (id : String)
    (e : JsValue) :
    (onMessage cfg s (.streamError id e)).st =
      streamTermState s id (setErr e) :=
  rfl

theorem Inv_streamTerm1 (cfg : Config) (s : State) (id : String)
    (f : StreamState → StreamState) (hinv : Inv cfg s) :
    Inv cfg (streamTerm1 s id f) := by
  unfold streamTerm1
  by_cases hm : id ∈ s.streamMap
  · rw [if_pos hm]
    refine Inv_shrink cfg s _ ?_ ?_ ?_ ?_ ?_ hinv
    · intro t ht
      have ht' : t ∈ (clearHandle s (streamTid s id)).armed := ht
      exact ((clearHandle_mem s _ t).1 ht').1
    · intro id2 en hen
      have hen' : alookup (clearHandle s
          (streamTid s id)).promiseMap id2 = some en := hen
      rw [clearHandle_promiseMap] at hen'
      exact hen'
    · show ((clearHandle s (streamTid s id)).promiseMap.map Prod.fst).Nodup
      rw [clearHandle_promiseMap]
      exact hinv.keysNd
    · intro id2 h
      show (alookup (clearHandle s (streamTid s id)).cells id2).isSome = true
      rw [clearHandle_cells]
      exact h
    · intro id2 h
      show (alookup (aupdate f (clearHandle s (streamTid s id)).streams id)
        id2).isSome = true
      apply alookup_aupdate_isSome
      rw [clearHandle_streams]
      exact h
  · rw [if_neg hm]
    exact hinv

theorem Inv_streamTerm2 (cfg : Config) (s : State) (id : String)
    (hinv : Inv cfg s) : Inv cfg (streamTerm2 s id) := by
  unfold streamTerm2
  rcases hEn : alookup s.promiseMap id with _ | en
  · exact hinv
  · exact Inv_eraseEntry cfg _ id (Inv_clearHandle cfg s _ hinv)

theorem Inv_streamTerm (cfg : Config) (s : State) (id : String)
    (f : StreamState → StreamState) (hinv : Inv cfg s) :
    Inv cfg (streamTermState s id f) :=
  Inv_streamTerm2 cfg _ id (Inv_streamTerm1 cfg s id f hinv)

theorem callStart_ack_shape (cfg : Config) (s : State) (id m : String)
    (args : List JsValue) (opt : Bool) (hcl : s.closed = false)
    (hA : ackArmB cfg = true)
    (hpf : cfg.postFail (.request (some id) m args opt) = none) :
    (callStart cfg s id m args opt).1.cells = aset s.cells id none ∧
    (callStart cfg s id m args opt).1.streams = s.streams ∧
    (callStart cfg s id m args opt).1.promiseMap =
      aset s.promiseMap id
        ⟨m, .promise, some s.nextH, none, ackRecInit cfg.ackTimeout⟩ ∧
    (callStart cfg s id m args opt).1.armed =
      s.armed ++ [⟨s.nextH, .ackT, id, m, args, .promise⟩] := by
  refine ⟨?_, ?_, ?_, ?_⟩ <;> simp [callStart, hcl, hA, hpf, armTimer]

theorem callStart_resp_shape (cfg : Config) (s : State) (id m : String)
    (args : List JsValue) (opt : Bool) (hcl : s.closed = false)
    (hA : ackArmB cfg = false) (hT : ¬ cfg.timeout < 0)
    (hpf : cfg.postFail (.request (some id) m args opt) = none) :
    (callStart cfg s id m args opt).1.cells = aset s.cells id none ∧
    (callStart cfg s id m args opt).1.streams = s.streams ∧
    (callStart cfg s id m args opt).1.promiseMap =
      aset s.promiseMap id
        ⟨m, .promise, none, some s.nextH, ackRecInit cfg.ackTimeout⟩ ∧
    (callStart cfg s id m args opt).1.armed =
      s.armed ++ [⟨s.nextH, .respT, id, m, args, .promise⟩] := by
  refine ⟨?_, ?_, ?_, ?_⟩ <;>
    simp [callStart, hcl, hA, hpf, startResponseTimeout, hT, armTimer]

theorem callStart_negT_shape (cfg : Config) (s : State) (id m : String)
    (args : List JsValue) (opt : Bool) (hcl : s.closed = false)
    (hA : ackArmB cfg = false) (hT : cfg.timeout < 0)
    (hpf : cfg.postFail (.request (some id) m args opt) = none) :
    (callStart cfg s id m args opt).1.cells = aset s.cells id none ∧
    (callStart cfg s id m args opt).1.streams = s.streams ∧
    (callStart cfg s id m args opt).1.promiseMap =
      aset s.promiseMap id
        ⟨m, .promise, none, none, ackRecInit cfg.ackTimeout⟩ ∧
    (callStart cfg s id m args opt).1.armed = s.armed := by
  refine ⟨?_, ?_, ?_, ?_⟩ <;>
    simp [callStart, hcl, hA, hpf, startResponseTimeout, hT]

theorem not_mem_keys_of_alookup_eq_none {α : Type} (l : List (String × α))
    (k : String) (h : alookup l k = none) : k ∉ l.map Prod.fst := by
  induction l with
  | nil => simp
  | cons p rest ih =>
    obtain ⟨k', w⟩ := p
    simp only [alookup] at h
    by_cases hk : k' = k
    · simp [hk] at h
    · simp only [List.map_cons, List.mem_cons]
      push_neg
      exact ⟨fun hE => hk hE.symm, ih (by simpa [hk] using h)⟩

theorem aerase_aset_absent {α : Type} (l : List (String × α)) (k : String)
    (v : α) (h : alookup l k = none) : aerase (aset l k v) k = l := by
  induction l with
  | nil => simp [aset, aerase]
  | cons p rest ih =>
    obtain ⟨k', w⟩ := p
    simp only [alookup] at h
    by_cases hk : k' = k
    · simp [hk] at h
    · simp only [aset, if_neg hk, aerase, if_neg hk]
      rw [ih (by simpa [hk] using h)]

theorem pm_none_of_fresh (cfg : Config) (s : State) (id : String)
    (hinv : Inv cfg s) (hfC : alookup s.cells id = none)
    (hfS : alookup s.streams id = none) :
    alookup s.promiseMap id = none := by
  rcases hE : alookup s.promiseMap id with _ | en
  · rfl
  · exfalso
    rcases hinv.pmKnown id en hE with h | h
    · rw [hfC] at h
      simp at h
    · rw [hfS] at h
      simp at h

theorem armed_id_ne_of_fresh (cfg : Config) (s : State) (id : String)
    (hinv : Inv cfg s) (hfC : alookup s.cells id = none)
    (hfS : alookup s.streams id = none) :
    ∀ t ∈ s.armed, t.id ≠ id := by
  intro t ht hid
  rcases hinv.known t ht with h | h
  · rw [hid, hfC] at h
    simp at h
  · rw [hid, hfS] at h
    simp at h

/-- Preservation for the call/stream-start steps: a fresh id acquires a
cell or closure, possibly a correlation record, and a batch of new timers
all carrying the fresh id. -/
theorem Inv_grow (cfg : Config) (s S : State) (id : String)
    (en : PromiseEntry) (ts : List Timer) (hinv : Inv cfg s)
    (hfC : alookup s.cells id = none) (hfS : alookup s.streams id = none)
    (hSc : ∀ j, (alookup s.cells j).isSome = true →
      (alookup S.cells j).isSome = true)
    (hSs : ∀ j, (alookup s.streams j).isSome = true →
      (alookup S.streams j).isSome = true)
    (hScid : (alookup S.cells id).isSome = true ∨
      (alookup S.streams id).isSome = true)
    (hSp : S.promiseMap = aset s.promiseMap id en ∨
      S.promiseMap = s.promiseMap)
    (hSa : S.armed = s.armed ++ ts)
    (hts : ∀ t ∈ ts, t.id = id)
    (hackl : ∀ t ∈ ts, t.kind = TKind.ackT → en.ackTimeoutId = some t.h)
    (hnb : ∀ t ∈ ts, ∀ t2 ∈ ts,
      ¬(t.kind = TKind.ackT ∧ t2.kind = TKind.respT))
    (hAF : ackArmB cfg = true → en.ackReceived = false →
      ∀ t ∈ ts, t.kind ≠ TKind.respT) :
    Inv cfg S := by
  have hpm0 : alookup s.promiseMap id = none :=
    pm_none_of_fresh cfg s id hinv hfC hfS
  have hold : ∀ t ∈ s.armed, t.id ≠ id :=
    armed_id_ne_of_fresh cfg s id hinv hfC hfS
  have hmem : ∀ t ∈ S.armed, t ∈ s.armed ∨ t ∈ ts := by
    intro t ht
    rw [hSa] at ht
    exact List.mem_append.1 ht
  have hlook : ∀ j en2, alookup S.promiseMap j = some en2 →
      (j = id ∧ en2 = en) ∨ alookup s.promiseMap j = some en2 := by
    intro j en2 hen
    rcases hSp with h | h
    · by_cases hj : j = id
      · subst hj
        rw [h, alookup_aset_self] at hen
        exact Or.inl ⟨rfl, by injection hen with h2; exact h2.symm⟩
      · rw [h, alookup_aset_ne _ _ _ _ hj] at hen
        exact Or.inr hen
    · rw [h] at hen
      exact Or.inr hen
  refine ⟨?_, ?_, ?_, ?_, ?_, ?_⟩
  · intro t ht
    rcases hmem t ht with h | h
    · rcases hinv.known t h with hc | hc
      · exact Or.inl (hSc _ hc)
      · exact Or.inr (hSs _ hc)
    · rw [hts t h]
      exact hScid
  · intro j en2 hen
    rcases hlook j en2 hen with ⟨hj, _⟩ | hsome
    · exact hj ▸ hScid
    · rcases hinv.pmKnown j en2 hsome with hc | hc
      · exact Or.inl (hSc _ hc)
      · exact Or.inr (hSs _ hc)
  · rcases hSp with h | h
    · rw [h, aset_keys_absent _ _ _ hpm0]
      refine List.Nodup.append hinv.keysNd (List.nodup_singleton id) ?_
      intro a ha hb
      simp only [List.mem_singleton] at hb
      subst hb
      exact not_mem_keys_of_alookup_eq_none _ _ hpm0 ha
    · rw [h]
      exact hinv.keysNd
  · intro t ht hk en2 hen
    rcases hmem t ht with h | h
    · rcases hlook t.id en2 hen with ⟨hj, _⟩ | hsome
      · exact absurd hj (hold t h)
      · exact hinv.ackLink t h hk en2 hsome
    · rcases hlook t.id en2 hen with ⟨_, hen2⟩ | hsome
      · rw [hen2]
        exact hackl t h hk
      · rw [hts t h, hpm0] at hsome
        cases hsome
  · intro t ht t2 ht2 hid
    rintro ⟨hk1, hk2⟩
    rcases hmem t ht with h1 | h1 <;> rcases hmem t2 ht2 with h2 | h2
    · exact hinv.noBoth t h1 t2 h2 hid ⟨hk1, hk2⟩
    · exact hold t h1 (hid.trans (hts t2 h2))
    · exact hold t2 h2 ((hts t h1).symm ▸ hid.symm)
    · exact hnb t h1 t2 h2 ⟨hk1, hk2⟩
  · intro hAB j en2 hen hrec t ht hid hkresp
    rcases hmem t ht with h | h
    · rcases hlook j en2 hen with ⟨hj, _⟩ | hsome
      · exact hold t h (hid.trans hj)
      · exact hinv.ackFirst hAB j en2 hsome hrec t h hid hkresp
    · rcases hlook j en2 hen with ⟨_, hen2⟩ | hsome
      · rw [hen2] at hrec
        exact hAF hAB hrec t h hkresp
      · rw [← hid, hts t h, hpm0] at hsome
        cases hsome

theorem callStart_fail_ack_shape (cfg : Config) (s : State) (id m : String)
    (args : List JsValue) (opt : Bool) (e : JsValue)
    (hcl : s.closed = false) (hA : ackArmB cfg = true)
    (hpf : cfg.postFail (.request (some id) m args opt) = some e)
    (hpm0 : alookup s.promiseMap id = none) :
    (callStart cfg s id m args opt).1.cells = aset s.cells id none ∧
    (callStart cfg s id m args opt).1.streams = s.streams ∧
    (callStart cfg s id m args opt).1.promiseMap = s.promiseMap ∧
    (callStart cfg s id m args opt).1.armed =
      (s.armed ++ [(⟨s.nextH, .ackT, id, m, args, .promise⟩ : Timer)]).filter
        (fun t => t.h != s.nextH) := by
  rcases hg : consultGeneralError cfg e with ⟨g, lg⟩
  cases g <;>
    refine ⟨?_, ?_, ?_, ?_⟩ <;>
    simp [callStart, hcl, hA, hpf, hg, armTimer, clearHandle,
      aerase_aset_absent _ _ _ hpm0]

theorem callStart_fail_resp_shape (cfg : Config) (s : State) (id m : String)
    (args : List JsValue) (opt : Bool) (e : JsValue)
    (hcl : s.closed = false) (hA : ackArmB cfg = false)
    (hT : ¬ cfg.timeout < 0)
    (hpf : cfg.postFail (.request (some id) m args opt) = some e)
    (hpm0 : alookup s.promiseMap id = none) :
    (callStart cfg s id m args opt).1.cells = aset s.cells id none ∧
    (callStart cfg s id m args opt).1.streams = s.streams ∧
    (callStart cfg s id m args opt).1.promiseMap = s.promiseMap ∧
    (callStart cfg s id m args opt).1.armed =
      (s.armed ++ [(⟨s.nextH, .respT, id, m, args, .promise⟩ : Timer)]).filter
        (fun t => t.h != s.nextH) := by
  rcases hg : consultGeneralError cfg e with ⟨g, lg⟩
  cases g <;>
    refine ⟨?_, ?_, ?_, ?_⟩ <;>
    simp [callStart, hcl, hA, hpf, hg, startResponseTimeout, hT, armTimer,
      clearHandle, aerase_aset_absent _ _ _ hpm0]

theorem callStart_fail_negT_shape (cfg : Config) (s : State) (id m : String)
    (args : List JsValue) (opt : Bool) (e : JsValue)
    (hcl : s.closed = false) (hA : ackArmB cfg = false)
    (hT : cfg.timeout < 0)
    (hpf : cfg.postFail (.request (some id) m args opt) = some e)
    (hpm0 : alookup s.promiseMap id = none) :
    (callStart cfg s id m args opt).1.cells = aset s.cells id none ∧
    (callStart cfg s id m args opt).1.streams = s.streams ∧
    (callStart cfg s id m args opt).1.promiseMap = s.promiseMap ∧
    (callStart cfg s id m args opt).1.armed = s.armed := by
  rcases hg : consultGeneralError cfg e with ⟨g, lg⟩
  cases g <;>
    refine ⟨?_, ?_, ?_, ?_⟩ <;>
    simp [callStart, hcl, hA, hpf, hg, startResponseTimeout, hT,
      clearHandle, aerase_aset_absent _ _ _ hpm0]

theorem doReject_cells_isSome (s : State) (tg : Target) (k : String)
    (w : JsValue) (j : String) (h : (alookup s.cells j).isSome = true) :
    (alookup (doReject s tg k w).cells j).isSome = true := by
  cases tg
  · simp only [doReject, settleCell]
    exact alookup_aupdate_isSome _ _ _ _ h
  · exact h

theorem doReject_streams_isSome (s : State) (tg : Target) (k : String)
    (w : JsValue) (j : String) (h : (alookup s.streams j).isSome = true) :
    (alookup (doReject s tg k w).streams j).isSome = true := by
  cases tg
  · exact h
  · simp only [doReject]
    exact alookup_aupdate_isSome _ _ _ _ h

/-- Named intermediate states, so that composed engine steps can be stated
without nesting record literals. -/
def eraseEntryState (s : State) (id : String) : State :=
  { s with promiseMap := aerase s.promiseMap id }

def armEraseState (s : State) (t : Timer) : State :=
  { s with armed := s.armed.erase t }

def streamsUpdState (s : State) (f : StreamState → StreamState)
    (id : String) : State :=
  { s with streams := aupdate f s.streams id }

def streamsSetState (s : State) (ss : StreamState) (id : String) : State :=
  { s with streams := aset s.streams id ss }

theorem Inv_setStreamMap (cfg : Config) (s : State) (sm : List String)
    (hinv : Inv cfg s) : Inv cfg { s with streamMap := sm } :=
  Inv_of_eq_parts cfg s _ rfl rfl rfl rfl hinv

theorem Inv_fireA (cfg : Config) (s : State) (t : Timer) (hinv : Inv cfg s) :
    Inv cfg (fireAckTimer cfg s t).1 := by
  rcases hc : consultAckTimeoutHandler cfg t.method t.args with ⟨rej, lg⟩
  cases rej with
  | none =>
    have hstep : (fireAckTimer cfg s t).1 =
        eraseEntryState (armEraseState s t) t.id := by
      simp [fireAckTimer, hc, eraseEntryState, armEraseState]
    rw [hstep]
    exact Inv_eraseEntry cfg _ t.id (Inv_armErase cfg s t hinv)
  | some e =>
    have hstep : (fireAckTimer cfg s t).1 =
        eraseEntryState (doReject (armEraseState s t) t.target t.id e)
          t.id := by
      simp [fireAckTimer, hc, eraseEntryState, armEraseState]
    rw [hstep]
    exact Inv_eraseEntry cfg _ t.id (Inv_doReject cfg _ t.target t.id e
      (Inv_armErase cfg s t hinv))

theorem Inv_fireR (cfg : Config) (s : State) (t : Timer) (hinv : Inv cfg s) :
    Inv cfg (fireRespTimer cfg s t).1 := by
  rcases hc : consultTimeoutHandler cfg t.method t.args with ⟨rej, lg⟩
  cases rej with
  | none =>
    have hstep : (fireRespTimer cfg s t).1 =
        { eraseEntryState (armEraseState s t) t.id with
          streamMap := (armEraseState s t).streamMap.erase t.id } := by
      simp [fireRespTimer, hc, eraseEntryState, armEraseState]
    rw [hstep]
    exact Inv_setStreamMap cfg _ _
      (Inv_eraseEntry cfg _ t.id (Inv_armErase cfg s t hinv))
  | some e =>
    have hstep : (fireRespTimer cfg s t).1 =
        { eraseEntryState (doReject (armEraseState s t) t.target t.id e)
            t.id with
          streamMap := (doReject (armEraseState s t) t.target t.id
            e).streamMap.erase t.id } := by
      simp [fireRespTimer, hc, eraseEntryState, armEraseState]
    rw [hstep]
    exact Inv_setStreamMap cfg _ _
      (Inv_eraseEntry cfg _ t.id (Inv_doReject cfg _ t.target t.id e
        (Inv_armErase cfg s t hinv)))

theorem Inv_fireS (cfg : Config) (s : State) (t : Timer) (hinv : Inv cfg s) :
    Inv cfg (fireStreamTimer cfg s t).1 := by
  rcases hc : consultTimeoutHandler cfg t.method t.args with ⟨rej, lg⟩
  cases rej with
  | none =>
    have hstep : (fireStreamTimer cfg s t).1 =
        { armEraseState s t with
          streamMap := (armEraseState s t).streamMap.erase t.id } := by
      simp [fireStreamTimer, hc, armEraseState]
    rw [hstep]
    exact Inv_setStreamMap cfg _ _ (Inv_armErase cfg s t hinv)
  | some e =>
    have hstep : (fireStreamTimer cfg s t).1 =
        { streamsUpdState (armEraseState s t) (setErr e) t.id with
          streamMap := (armEraseState s t).streamMap.erase t.id } := by
      simp [fireStreamTimer, hc, streamsUpdState, armEraseState]
    rw [hstep]
    exact Inv_setStreamMap cfg _ _
      (Inv_streamsUpd cfg _ _ t.id (Inv_armErase cfg s t hinv))

theorem closePendingLoop_cells_isSome (l : List (String × PromiseEntry))
    (j : String) : ∀ (custom : Option JsValue) (st : State),
    (alookup st.cells j).isSome = true →
    (alookup (closePendingLoop custom l st).1.cells j).isSome = true := by
  induction l with
  | nil => exact fun custom st h => h
  | cons p rest ih =>
    intro custom st h
    obtain ⟨k, e⟩ := p
    cases custom with
    | none =>
      simp only [closePendingLoop]
      apply ih
      apply doReject_cells_isSome
      rw [clearHandle_cells, clearHandle_cells]
      exact h
    | some c =>
      simp only [closePendingLoop]
      apply ih
      apply doReject_cells_isSome
      rw [clearHandle_cells, clearHandle_cells]
      exact h

theorem closePendingLoop_streams_isSome (l : List (String × PromiseEntry))
    (j : String) (custom : Option JsValue) (st : State)
    (h : (alookup st.streams j).isSome = true) :
    (alookup (closePendingLoop custom l st).1.streams j).isSome = true := by
  rcases closePendingLoop_streams_shape l j custom st with hE | ⟨w, hE⟩
  · rw [hE]
    exact h
  · rw [hE]
    rcases hx : alookup st.streams j with _ | ss
    · rw [hx] at h
      simp at h
    · rfl

theorem closeStreamsLoop_streams_isSome (v : JsValue) (ids : List String)
    (j : String) : ∀ st : State,
    (alookup st.streams j).isSome = true →
    (alookup (closeStreamsLoop v ids st).streams j).isSome = true := by
  induction ids with
  | nil => exact fun st h => h
  | cons id0 rest ih =>
    intro st h
    simp only [closeStreamsLoop]
    apply ih
    apply alookup_aupdate_isSome
    rw [clearHandle_streams]
    exact h

theorem closeRpc_streams (st : State) (custom : Option JsValue) :
    (closeRpc st custom).streams =
      (closeStreamsLoop (closeStreamVal (closePendingLoop custom
        st.promiseMap { st with closed := true }).2)
        (closePendingLoop custom st.promiseMap
          { st with closed := true }).1.streamMap
        { (closePendingLoop custom st.promiseMap
            { st with closed := true }).1 with
          promiseMap := [] }).streams :=
  rfl

theorem Inv_close (cfg : Config) (s : State) (custom : Option JsValue)
    (hinv : Inv cfg s) : Inv cfg (closeRpc s custom) := by
  refine Inv_shrink cfg s _ ?_ ?_ ?_ ?_ ?_ hinv
  · intro t ht
    have ht1 : t ∈ (closeStreamsLoop (closeStreamVal (closePendingLoop
        custom s.promiseMap { s with closed := true }).2)
        (closePendingLoop custom s.promiseMap
          { s with closed := true }).1.streamMap
        { (closePendingLoop custom s.promiseMap
            { s with closed := true }).1 with
          promiseMap := [] }).armed := ht
    obtain ⟨ht2, _⟩ := closeStreamsLoop_armed _ _ t _ ht1
    have ht3 : t ∈ (closePendingLoop custom s.promiseMap
        { s with closed := true }).1.armed := ht2
    obtain ⟨ht4, _⟩ := closePendingLoop_armed _ _ _ t ht3
    exact ht4
  · intro j en hen
    rw [closeRpc_promiseMap] at hen
    simp [alookup] at hen
  · rw [closeRpc_promiseMap]
    simp
  · intro j hj
    rw [closeRpc_cells]
    exact closePendingLoop_cells_isSome s.promiseMap j custom _ hj
  · intro j hj
    rw [closeRpc_streams]
    apply closeStreamsLoop_streams_isSome
    exact closePendingLoop_streams_isSome s.promiseMap j custom _ hj

theorem rejectPendingLoop_cells_isSome (hnd : PendingHandler)
    (l : List (String × PromiseEntry)) (j : String) : ∀ st : State,
    (alookup st.cells j).isSome = true →
    (alookup (rejectPendingLoop hnd l st).cells j).isSome = true := by
  induction l with
  | nil => exact fun st h => h
  | cons p rest ih =>
    intro st h
    obtain ⟨k, e⟩ := p
    simp only [rejectPendingLoop]
    cases hnd with
    | none => exact ih _ (doReject_cells_isSome _ _ _ _ _ h)
    | some f =>
      cases hf : f e.method with
      | some ev =>
        simp only [hf]
        exact ih _ (doReject_cells_isSome _ _ _ _ _ h)
      | none =>
        simp only [hf]
        exact ih _ h

theorem rejectPendingLoop_streams_isSome (hnd : PendingHandler)
    (l : List (String × PromiseEntry)) (j : String) : ∀ st : State,
    (alookup st.streams j).isSome = true →
    (alookup (rejectPendingLoop hnd l st).streams j).isSome = true := by
  induction l with
  | nil => exact fun st h => h
  | cons p rest ih =>
    intro st h
    obtain ⟨k, e⟩ := p
    simp only [rejectPendingLoop]
    cases hnd with
    | none => exact ih _ (doReject_streams_isSome _ _ _ _ _ h)
    | some f =>
      cases hf : f e.method with
      | some ev =>
        simp only [hf]
        exact ih _ (doReject_streams_isSome _ _ _ _ _ h)
      | none =>
        simp only [hf]
        exact ih _ h

theorem Inv_rejp (cfg : Config) (s : State) (hnd : PendingHandler)
    (hinv : Inv cfg s) : Inv cfg (rejectPendingCallsStep hnd s) := by
  refine Inv_shrink cfg s _ ?_ ?_ ?_ ?_ ?_ hinv
  · intro t ht
    have ht1 : t ∈ (rejectPendingLoop hnd s.promiseMap s).armed := ht
    rw [rejectPendingLoop_armed] at ht1
    exact ht1
  · intro j en hen
    have hen1 : alookup ([] : List (String × PromiseEntry)) j = some en :=
      hen
    simp [alookup] at hen1
  · show (([] : List (String × PromiseEntry)).map Prod.fst).Nodup
    simp
  · intro j hj
    exact rejectPendingLoop_cells_isSome hnd s.promiseMap j s hj
  · intro j hj
    exact rejectPendingLoop_streams_isSome hnd s.promiseMap j s hj

theorem Inv_iterA (cfg : Config) (s : State) (id : String)
    (hinv : Inv cfg s) : Inv cfg (iterStep s id).1 := by
  rcases hss : alookup s.streams id with _ | ss
  · have hE : (iterStep s id).1 = s := by
      simp [iterStep, hss]
    rw [hE]
    exact hinv
  · have hbase : Inv cfg (streamsSetState s (iterNext ss).1 id) := by
      refine Inv_shrink cfg s _ ?_ ?_ ?_ ?_ ?_ hinv
      · intro t ht
        exact ht
      · intro j en hen
        exact hen
      · exact hinv.keysNd
      · intro j h
        exact h
      · intro j h
        exact alookup_aset_isSome _ _ _ _ h
    rcases hout : (iterNext ss).2 with v | _ | e | _
    · have hE : (iterStep s id).1 = streamsSetState s (iterNext ss).1 id :=
        by simp [iterStep, hss, hout, streamsSetState]
      rw [hE]
      exact hbase
    · have hE : (iterStep s id).1 =
          { eraseEntryState (streamsSetState s (iterNext ss).1 id) id with
            streamMap := (streamsSetState s
              (iterNext ss).1 id).streamMap.erase id } := by
        simp [iterStep, hss, hout, streamsSetState, eraseEntryState]
      rw [hE]
      exact Inv_setStreamMap cfg _ _ (Inv_eraseEntry cfg _ id hbase)
    · have hE : (iterStep s id).1 =
          { eraseEntryState (streamsSetState s (iterNext ss).1 id) id with
            streamMap := (streamsSetState s
              (iterNext ss).1 id).streamMap.erase id } := by
        simp [iterStep, hss, hout, streamsSetState, eraseEntryState]
      rw [hE]
      exact Inv_setStreamMap cfg _ _ (Inv_eraseEntry cfg _ id hbase)
    · have hE : (iterStep s id).1 = streamsSetState s (iterNext ss).1 id :=
        by simp [iterStep, hss, hout, streamsSetState]
      rw [hE]
      exact hbase

theorem Inv_iterR (cfg : Config) (s : State) (id : String)
    (hinv : Inv cfg s) : Inv cfg (iterReturnStep s id) := by
  refine Inv_shrink cfg s _ ?_ ?_ ?_ ?_ ?_ hinv
  · intro t ht
    exact ht
  · intro j en hen
    exact alookup_aerase_sub _ _ _ _ hinv.keysNd hen
  · exact List.Nodup.sublist (aerase_keys_sublist s.promiseMap id)
      hinv.keysNd
  · intro j h
    exact h
  · intro j h
    exact alookup_aupdate_isSome _ _ _ _ h

theorem Inv_cleanup (cfg : Config) (s : State) (id : String)
    (h1 h2 : Option Nat) (hinv : Inv cfg s) :
    Inv cfg (callCleanup s id h1 h2) :=
  Inv_eraseEntry cfg _ id (Inv_clearHandle cfg _ h2
    (Inv_clearHandle cfg s h1 hinv))

theorem Inv_call (cfg : Config) (s : State) (id m : String)
    (args : List JsValue) (opt : Bool) (hinv : Inv cfg s)
    (hf : freshId s id) : Inv cfg (callStart cfg s id m args opt).1 := by
  obtain ⟨hfC, hfS⟩ := hf
  have hpm0 : alookup s.promiseMap id = none :=
    pm_none_of_fresh cfg s id hinv hfC hfS
  by_cases hcl : s.closed
  · have hE : (callStart cfg s id m args opt).1 = s := by
      simp [callStart, hcl]
    rw [hE]
    exact hinv
  · have hcl' : s.closed = false := by
      simpa using hcl
    rcases hpf : cfg.postFail (.request (some id) m args opt) with _ | e
    · by_cases hA : ackArmB cfg = true
      · obtain ⟨hc, hs, hp, ha⟩ :=
          callStart_ack_shape cfg s id m args opt hcl' hA hpf
        apply Inv_grow cfg s _ id
          ⟨m, .promise, some s.nextH, none, ackRecInit cfg.ackTimeout⟩
          [⟨s.nextH, .ackT, id, m, args, .promise⟩] hinv hfC hfS
        · intro j hj
          rw [hc]
          exact alookup_aset_isSome _ _ _ _ hj
        · intro j hj
          rw [hs]
          exact hj
        · left
          rw [hc, alookup_aset_self]
          rfl
        · exact Or.inl hp
        · exact ha
        · intro t ht
          simp only [List.mem_singleton] at ht
          subst ht
          rfl
        · intro t ht hk
          simp only [List.mem_singleton] at ht
          subst ht
          rfl
        · intro t ht t2 ht2
          simp only [List.mem_singleton] at ht ht2
          subst ht
          subst ht2
          rintro ⟨_, h2⟩
          cases h2
        · intro _ _ t ht
          simp only [List.mem_singleton] at ht
          subst ht
          intro hk
          cases hk
      · have hA' : ackArmB cfg = false := by
          simpa using hA
        by_cases hT : cfg.timeout < 0
        · obtain ⟨hc, hs, hp, ha⟩ :=
            callStart_negT_shape cfg s id m args opt hcl' hA' hT hpf
          apply Inv_grow cfg s _ id
            ⟨m, .promise, none, none, ackRecInit cfg.ackTimeout⟩
            ([] : List Timer) hinv hfC hfS
          · intro j hj
            rw [hc]
            exact alookup_aset_isSome _ _ _ _ hj
          · intro j hj
            rw [hs]
            exact hj
          · left
            rw [hc, alookup_aset_self]
            rfl
          · exact Or.inl hp
          · rw [List.append_nil]
            exact ha
          · intro t ht
            simp at ht
          · intro t ht
            simp at ht
          · intro t ht
            simp at ht
          · intro _ _ t ht
            simp at ht
        · obtain ⟨hc, hs, hp, ha⟩ :=
            callStart_resp_shape cfg s id m args opt hcl' hA' hT hpf
          apply Inv_grow cfg s _ id
            ⟨m, .promise, none, some s.nextH, ackRecInit cfg.ackTimeout⟩
            [⟨s.nextH, .respT, id, m, args, .promise⟩] hinv hfC hfS
          · intro j hj
            rw [hc]
            exact alookup_aset_isSome _ _ _ _ hj
          · intro j hj
            rw [hs]
            exact hj
          · left
            rw [hc, alookup_aset_self]
            rfl
          · exact Or.inl hp
          · exact ha
          · intro t ht
            simp only [List.mem_singleton] at ht
            subst ht
            rfl
          · intro t ht hk
            simp only [List.mem_singleton] at ht
            subst ht
            cases hk
          · intro t ht t2 ht2
            simp only [List.mem_singleton] at ht ht2
            subst ht
            subst ht2
            rintro ⟨h1, _⟩
            cases h1
          · intro hAB
            rw [hA'] at hAB
            cases hAB
    · by_cases hA : ackArmB cfg = true
      · obtain ⟨hc, hs, hp, ha⟩ :=
          callStart_fail_ack_shape cfg s id m args opt e hcl' hA hpf hpm0
        refine Inv_shrink cfg s _ ?_ ?_ ?_ ?_ ?_ hinv
        · intro t ht
          rw [ha] at ht
          obtain ⟨hmem, hcond⟩ := List.mem_filter.1 ht
          rcases List.mem_append.1 hmem with h | h
          · exact h
          · simp only [List.mem_singleton] at h
            subst h
            simp at hcond
        · intro j en2 hen
          rw [hp] at hen
          exact hen
        · rw [hp]
          exact hinv.keysNd
        · intro j hj
          rw [hc]
          exact alookup_aset_isSome _ _ _ _ hj
        · intro j hj
          rw [hs]
          exact hj
      · have hA' : ackArmB cfg = false := by
          simpa using hA
        by_cases hT : cfg.timeout < 0
        · obtain ⟨hc, hs, hp, ha⟩ :=
            callStart_fail_negT_shape cfg s id m args opt e hcl' hA' hT hpf
              hpm0
          refine Inv_shrink cfg s _ ?_ ?_ ?_ ?_ ?_ hinv
          · intro t ht
            rw [ha] at ht
            exact ht
          · intro j en2 hen
            rw [hp] at hen
            exact hen
          · rw [hp]
            exact hinv.keysNd
          · intro j hj
            rw [hc]
            exact alookup_aset_isSome _ _ _ _ hj
          · intro j hj
            rw [hs]
            exact hj
        · obtain ⟨hc, hs, hp, ha⟩ :=
            callStart_fail_resp_shape cfg s id m args opt e hcl' hA' hT hpf
              hpm0
          refine Inv_shrink cfg s _ ?_ ?_ ?_ ?_ ?_ hinv
          · intro t ht
            rw [ha] at ht
            obtain ⟨hmem, hcond⟩ := List.mem_filter.1 ht
            rcases List.mem_append.1 hmem with h | h
            · exact h
            · simp only [List.mem_singleton] at h
              subst h
              simp at hcond
          · intro j en2 hen
            rw [hp] at hen
            exact hen
          · rw [hp]
            exact hinv.keysNd
          · intro j hj
            rw [hc]
            exact alookup_aset_isSome _ _ _ _ hj
          · intro j hj
            rw [hs]
            exact hj

theorem streamStart_ack_shape (cfg : Config) (s : State) (id m : String)
    (args : List JsValue) (hcl : s.closed = false)
    (hA : ackArmB cfg = true)
    (hpf : cfg.postFail (.request (some id) m args false) = none) :
    (streamStart cfg s id m args).1.cells = s.cells ∧
    (streamStart cfg s id m args).1.streams =
      aset s.streams id ⟨[], false, none, none⟩ ∧
    (streamStart cfg s id m args).1.promiseMap =
      aset s.promiseMap id ⟨m, .stream, some s.nextH, none, false⟩ ∧
    (streamStart cfg s id m args).1.armed =
      s.armed ++ [⟨s.nextH, .ackT, id, m, args, .stream⟩] := by
  refine ⟨?_, ?_, ?_, ?_⟩ <;> simp [streamStart, hcl, hA, hpf, armTimer]

theorem streamStart_streamT_shape (cfg : Config) (s : State) (id m : String)
    (args : List JsValue) (hcl : s.closed = false)
    (hA : ackArmB cfg = false) (hT : 0 ≤ cfg.timeout)
    (hpf : cfg.postFail (.request (some id) m args false) = none) :
    (streamStart cfg s id m args).1.cells = s.cells ∧
    (streamStart cfg s id m args).1.streams =
      aupdate (setTid s.nextH) (aset s.streams id ⟨[], false, none, none⟩)
        id ∧
    (streamStart cfg s id m args).1.promiseMap = s.promiseMap ∧
    (streamStart cfg s id m args).1.armed =
      s.armed ++ [⟨s.nextH, .streamT, id, m, args, .stream⟩] := by
  refine ⟨?_, ?_, ?_, ?_⟩ <;> simp [streamStart, hcl, hA, hT, hpf, armTimer]

theorem streamStart_negT_shape (cfg : Config) (s : State) (id m : String)
    (args : List JsValue) (hcl : s.closed = false)
    (hA : ackArmB cfg = false) (hT : ¬ 0 ≤ cfg.timeout)
    (hpf : cfg.postFail (.request (some id) m args false) = none) :
    (streamStart cfg s id m args).1.cells = s.cells ∧
    (streamStart cfg s id m args).1.streams =
      aset s.streams id ⟨[], false, none, none⟩ ∧
    (streamStart cfg s id m args).1.promiseMap = s.promiseMap ∧
    (streamStart cfg s id m args).1.armed = s.armed := by
  refine ⟨?_, ?_, ?_, ?_⟩ <;> simp [streamStart, hcl, hA, hT, hpf]

theorem streamStart_fail_ack_shape (cfg : Config) (s : State) (id m : String)
    (args : List JsValue) (e : JsValue) (hcl : s.closed = false)
    (hA : ackArmB cfg = true)
    (hpf : cfg.postFail (.request (some id) m args false) = some e)
    (hpm0 : alookup s.promiseMap id = none) :
    (streamStart cfg s id m args).1.cells = s.cells ∧
    (streamStart cfg s id m args).1.streams =
      aset s.streams id ⟨[], false, none, none⟩ ∧
    (streamStart cfg s id m args).1.promiseMap = s.promiseMap ∧
    (streamStart cfg s id m args).1.armed =
      s.armed ++ [⟨s.nextH, .ackT, id, m, args, .stream⟩] := by
  refine ⟨?_, ?_, ?_, ?_⟩ <;>
    simp [streamStart, hcl, hA, hpf, armTimer,
      aerase_aset_absent _ _ _ hpm0]

theorem streamStart_fail_streamT_shape (cfg : Config) (s : State)
    (id m : String) (args : List JsValue) (e : JsValue)
    (hcl : s.closed = false) (hA : ackArmB cfg = false)
    (hT : 0 ≤ cfg.timeout)
    (hpf : cfg.postFail (.request (some id) m args false) = some e)
    (hpm0 : alookup s.promiseMap id = none) :
    (streamStart cfg s id m args).1.cells = s.cells ∧
    (streamStart cfg s id m args).1.streams =
      aupdate (setTid s.nextH) (aset s.streams id ⟨[], false, none, none⟩)
        id ∧
    (streamStart cfg s id m args).1.promiseMap = s.promiseMap ∧
    (streamStart cfg s id m args).1.armed =
      s.armed ++ [⟨s.nextH, .streamT, id, m, args, .stream⟩] := by
  refine ⟨?_, ?_, ?_, ?_⟩ <;>
    simp [streamStart, hcl, hA, hT, hpf, armTimer, aerase_of_absent _ _ hpm0]

theorem streamStart_fail_negT_shape (cfg : Config) (s : State)
    (id m : String) (args : List JsValue) (e : JsValue)
    (hcl : s.closed = false) (hA : ackArmB cfg = false)
    (hT : ¬ 0 ≤ cfg.timeout)
    (hpf : cfg.postFail (.request (some id) m args false) = some e)
    (hpm0 : alookup s.promiseMap id = none) :
    (streamStart cfg s id m args).1.cells = s.cells ∧
    (streamStart cfg s id m args).1.streams =
      aset s.streams id ⟨[], false, none, none⟩ ∧
    (streamStart cfg s id m args).1.promiseMap = s.promiseMap ∧
    (streamStart cfg s id m args).1.armed = s.armed := by
  refine ⟨?_, ?_, ?_, ?_⟩ <;>
    simp [streamStart, hcl, hA, hT, hpf, aerase_of_absent _ _ hpm0]

/-- Common core of the `streamStart` cases: cells unchanged, a fresh stream
closure (possibly carrying its timer handle), an optional ack record, and a
batch of zero or one new stream-targeted timers. -/
theorem Inv_streamC_aux (cfg : Config) (s S : State) (id m : String)
    (args : List JsValue) (hinv : Inv cfg s)
    (hfC : alookup s.cells id = none) (hfS : alookup s.streams id = none)
    (ts : List Timer) (k : TKind)
    (hkk : k = TKind.ackT ∨ k = TKind.streamT)
    (hts0 : ts = [] ∨ ts = [⟨s.nextH, k, id, m, args, .stream⟩])
    (hc : S.cells = s.cells)
    (hs : S.streams = aset s.streams id ⟨[], false, none, none⟩ ∨
      S.streams = aupdate (setTid s.nextH)
        (aset s.streams id ⟨[], false, none, none⟩) id)
    (hp : S.promiseMap =
        aset s.promiseMap id ⟨m, .stream, some s.nextH, none, false⟩ ∨
      S.promiseMap = s.promiseMap)
    (ha : S.armed = s.armed ++ ts) :
    Inv cfg S := by
  have hmem1 : ∀ t ∈ ts, t = (⟨s.nextH, k, id, m, args, .stream⟩ : Timer) :=
    by
    intro t ht
    rcases hts0 with h | h
    · rw [h] at ht
      simp at ht
    · rw [h] at ht
      simpa using ht
  apply Inv_grow cfg s S id ⟨m, .stream, some s.nextH, none, false⟩ ts hinv
    hfC hfS
  · intro j hj
    rw [hc]
    exact hj
  · intro j hj
    rcases hs with h | h
    · rw [h]
      exact alookup_aset_isSome _ _ _ _ hj
    · rw [h]
      apply alookup_aupdate_isSome
      exact alookup_aset_isSome _ _ _ _ hj
  · right
    rcases hs with h | h
    · rw [h, alookup_aset_self]
      rfl
    · rw [h]
      apply alookup_aupdate_isSome
      rw [alookup_aset_self]
      rfl
  · exact hp
  · exact ha
  · intro t ht
    rw [hmem1 t ht]
  · intro t ht hk
    rw [hmem1 t ht]
  · intro t ht t2 ht2
    rw [hmem1 t ht, hmem1 t2 ht2]
    rintro ⟨h1, h2⟩
    rcases hkk with hE | hE
    · rw [hE] at h2
      cases h2
    · rw [hE] at h1
      cases h1
  · intro _ _ t ht
    rw [hmem1 t ht]
    intro hk
    rcases hkk with hE | hE <;> rw [hE] at hk <;> cases hk

/-- `_callStream`'s `startCall` preserves the invariant; a fresh stream id
acquires a closure, possibly an ack record, and at most one new timer. -/
theorem Inv_streamC (cfg : Config) (s : State) (id m : String)
    (args : List JsValue) (hinv : Inv cfg s) (hf : freshId s id) :
    Inv cfg (streamStart cfg s id m args).1 := by
  obtain ⟨hfC, hfS⟩ := hf
  have hpm0 : alookup s.promiseMap id = none :=
    pm_none_of_fresh cfg s id hinv hfC hfS
  by_cases hcl : s.closed
  · have hE : (streamStart cfg s id m args).1 = s := by
      simp [streamStart, hcl]
    rw [hE]
    exact hinv
  · have hcl' : s.closed = false := by
      simpa using hcl
    rcases hpf : cfg.postFail (.request (some id) m args false) with _ | e
    · by_cases hA : ackArmB cfg = true
      · obtain ⟨hc, hs, hp, ha⟩ :=
          streamStart_ack_shape cfg s id m args hcl' hA hpf
        exact Inv_streamC_aux cfg s _ id m args hinv hfC hfS _ TKind.ackT
          (Or.inl rfl) (Or.inr rfl) hc (Or.inl hs) (Or.inl hp) ha
      · have hA' : ackArmB cfg = false := by
          simpa using hA
        by_cases hT : 0 ≤ cfg.timeout
        · obtain ⟨hc, hs, hp, ha⟩ :=
            streamStart_streamT_shape cfg s id m args hcl' hA' hT hpf
          exact Inv_streamC_aux cfg s _ id m args hinv hfC hfS _
            TKind.streamT (Or.inr rfl) (Or.inr rfl) hc (Or.inr hs)
            (Or.inr hp) ha
        · obtain ⟨hc, hs, hp, ha⟩ :=
            streamStart_negT_shape cfg s id m args hcl' hA' hT hpf
          exact Inv_streamC_aux cfg s _ id m args hinv hfC hfS []
            TKind.streamT (Or.inr rfl) (Or.inl rfl) hc (Or.inl hs)
            (Or.inr hp) (by rw [List.append_nil]; exact ha)
    · by_cases hA : ackArmB cfg = true
      · obtain ⟨hc, hs, hp, ha⟩ :=
          streamStart_fail_ack_shape cfg s id m args e hcl' hA hpf hpm0
        exact Inv_streamC_aux cfg s _ id m args hinv hfC hfS _ TKind.ackT
          (Or.inl rfl) (Or.inr rfl) hc (Or.inl hs) (Or.inr hp) ha
      · have hA' : ackArmB cfg = false := by
          simpa using hA
        by_cases hT : 0 ≤ cfg.timeout
        · obtain ⟨hc, hs, hp, ha⟩ :=
            streamStart_fail_streamT_shape cfg s id m args e hcl' hA' hT hpf
              hpm0
          exact Inv_streamC_aux cfg s _ id m args hinv hfC hfS _
            TKind.streamT (Or.inr rfl) (Or.inr rfl) hc (Or.inr hs)
            (Or.inr hp) ha
        · obtain ⟨hc, hs, hp, ha⟩ :=
            streamStart_fail_negT_shape cfg s id m args e hcl' hA' hT hpf
              hpm0
          exact Inv_streamC_aux cfg s _ id m args hinv hfC hfS []
            TKind.streamT (Or.inr rfl) (Or.inl rfl) hc (Or.inl hs)
            (Or.inr hp) (by rw [List.append_nil]; exact ha)

theorem Inv_msg (cfg : Config) (s : State) (m : RpcMessage)
    (hinv : Inv cfg s) : Inv cfg (onMessage cfg s m).st := by
  cases m with
  | request i mth a o => exact hinv
  | ack id =>
    rcases hE : alookup s.promiseMap id with _ | en
    · have hstep : (onMessage cfg s (.ack id)).st = s := by
        simp [onMessage, hE]
      rw [hstep]
      exact hinv
    · cases hA : en.ackReceived
      · exact Inv_ackCase cfg s id en hE hA hinv
      · have hstep : (onMessage cfg s (.ack id)).st = s := by
          simp [onMessage, hE, hA]
        rw [hstep]
        exact hinv
  | response id r e =>
    rcases hE : alookup s.promiseMap id with _ | p
    · have hstep : (onMessage cfg s (.response id r e)).st =
          { s with promiseMap := aerase s.promiseMap id } := by
        simp [onMessage, hE]
      rw [hstep]
      exact Inv_eraseEntry cfg s id hinv
    · cases hte : truthy e
      · have hstep : (onMessage cfg s (.response id r e)).st =
            { doResolve (clearHandle (clearHandle s p.ackTimeoutId)
                p.responseTimeoutId) p.target id r with
              promiseMap := aerase (doResolve (clearHandle (clearHandle s
                p.ackTimeoutId) p.responseTimeoutId) p.target id
                  r).promiseMap id } := by
          simp [onMessage, hE, hte]
        rw [hstep]
        exact Inv_eraseEntry cfg _ id (Inv_doResolve cfg _ p.target id r
          (Inv_clearHandle cfg _ _ (Inv_clearHandle cfg s _ hinv)))
      · have hstep : (onMessage cfg s (.response id r e)).st =
            { doReject (clearHandle (clearHandle s p.ackTimeoutId)
                p.responseTimeoutId) p.target id e with
              promiseMap := aerase (doReject (clearHandle (clearHandle s
                p.ackTimeoutId) p.responseTimeoutId) p.target id
                  e).promiseMap id } := by
          simp [onMessage, hE, hte]
        rw [hstep]
        exact Inv_eraseEntry cfg _ id (Inv_doReject cfg _ p.target id e
          (Inv_clearHandle cfg _ _ (Inv_clearHandle cfg s _ hinv)))
  | streamNext id v =>
    by_cases hm : id ∈ s.streamMap
    · have hstep : (onMessage cfg s (.streamNext id v)).st =
          { s with streams := aupdate (pushVal v) s.streams id } := by
        simp [onMessage, hm]
      rw [hstep]
      exact Inv_streamsUpd cfg s _ id hinv
    · have hstep : (onMessage cfg s (.streamNext id v)).st = s := by
        simp [onMessage, hm]
      rw [hstep]
      exact hinv
  | streamEnd id =>
    rw [onMessage_streamEnd_eq]
    exact Inv_streamTerm cfg s id setDone hinv
  | streamError id e =>
    rw [onMessage_streamError_eq]
    exact Inv_streamTerm cfg s id (setErr e) hinv

/-- The timer-discipline invariant holds in every reachable state. -/
theorem Reach_Inv (cfg : Config) (s : State) (h : Reach cfg s) :
    Inv cfg s := by
  induction h with
  | init => exact Inv_init cfg
  | msg hr ih => exact Inv_msg cfg _ _ ih
  | call hr hf ih => exact Inv_call cfg _ _ _ _ _ ih hf
  | streamC hr hf ih => exact Inv_streamC cfg _ _ _ _ ih hf
  | fireA hr hm hk ih => exact Inv_fireA cfg _ _ ih
  | fireR hr hm hk ih => exact Inv_fireR cfg _ _ ih
  | fireS hr hm hk ih => exact Inv_fireS cfg _ _ ih
  | close hr ih => exact Inv_close cfg _ _ ih
  | rejp hr ih => exact Inv_rejp cfg _ _ ih
  | iterA hr ih => exact Inv_iterA cfg _ _ ih
  | iterR hr ih => exact Inv_iterR cfg _ _ ih
  | cleanup hr ih => exact Inv_cleanup cfg _ _ _ _ ih

/-- Claim C3: in every reachable endpoint state, an ack timer and a
response timer are never both armed for the same call id (the record's ack
timer and response timer are never both live); and when an ack timeout is
configured (`ackTimeout !== undefined && ackTimeout >= 0`), a pending
record whose armed response timer exists has already received its Ack —
the response timer is started no earlier than Ack receipt. -/
theorem C3_timer_discipline (cfg : Config) (s : State)
    (hreach : Reach cfg s) :
    (∀ t ∈ s.armed, ∀ t2 ∈ s.armed, t.id = t2.id →
      ¬(t.kind = TKind.ackT ∧ t2.kind = TKind.respT)) ∧
    (ackArmB cfg = true → ∀ id en, alookup s.promiseMap id = some en →
      (∃ t ∈ s.armed, t.id = id ∧ t.kind = TKind.respT) →
      en.ackReceived = true) := by
  have hinv := Reach_Inv cfg s hreach
  refine ⟨hinv.noBoth, ?_⟩
  intro hAB id en hen hex
  obtain ⟨t, ht, hid, hk⟩ := hex
  cases hrec : en.ackReceived
  · exact absurd hk (hinv.ackFirst hAB id en hen hrec t ht hid)
  · rfl

/-- Witness: the discipline at a concrete reachable state (one outgoing
call from the initial state). -/
theorem C3_timer_discipline_witness :
    (∀ t ∈ (callStart baseConfig initState "i" "m" [] false).1.armed,
      ∀ t2 ∈ (callStart baseConfig initState "i" "m" [] false).1.armed,
      t.id = t2.id → ¬(t.kind = TKind.ackT ∧ t2.kind = TKind.respT)) ∧
    (ackArmB baseConfig = true → ∀ id en,
      alookup (callStart baseConfig initState "i" "m"
        [] false).1.promiseMap id = some en →
      (∃ t ∈ (callStart baseConfig initState "i" "m" [] false).1.armed,
        t.id = id ∧ t.kind = TKind.respT) →
      en.ackReceived = true) :=
  C3_timer_discipline baseConfig
    (callStart baseConfig initState "i" "m" [] false).1
    (Reach.call Reach.init ⟨rfl, rfl⟩)

end Rpc
